import Mathlib

/-!
Verification of the capacity/variant model and the beam-search layout solver.

This file gives a shallow embedding, in Lean 4, of the computational core of
the repository:

* `Prediseño_automatizado.py` — `TextStyle`, `ImagePreset`, `CapacityModel`,
  `ColumnFootprint`, `NoteVariant`, `generate_note_variants` and their helpers;
* `src/solver.py` (the variant-based beam-search revision) — `PlanSettings`,
  `Assignment`, `SolverOutcome`, `_BeamState` and `solve_page_layout` with all
  of its helper functions.

Conventions of the embedding:

* Python `float` values are embedded as `ℚ` (the solver only adds, subtracts,
  multiplies, divides and compares them; decimal literals such as `0.38`
  become exact rationals).
* Python `int` values are embedded as `Int`; `int(...)` truncation of a float
  is `pyInt` (truncation toward zero).
* Python `dict`s with unique keys are embedded as association lists in
  insertion order; `dict.get`/`in` is `List.lookup`.
* Python tuples/lists of floats are `List ℚ`.
* Attributes read through `getattr(x, name, default)` on objects that may not
  define them are embedded as `Option` fields (absent = `none`), with the
  `getattr` default applied at the read site, exactly as the solver does.
* Fallible operations (`dict[k]` raising `KeyError`) return `Option`.

All definitions are executable and all the predicates used in theorem
statements are decidable, so every theorem can be evaluated on concrete
inputs.
-/

namespace LayoutSolver

/-- Python `int(q)` on a real value: truncation toward zero (`Rat.floor` and
`Rat.ceil` are the kernel-computable floor and ceiling of `ℚ`). -/
def pyInt (q : ℚ) : Int :=
  if 0 ≤ q then q.floor else q.ceil

/-- Python `max(l)` for a list known non-empty at the call site; the default
is the value the surrounding Python expression supplies for the empty case. -/
def listMax (l : List ℚ) (dflt : ℚ) : ℚ :=
  match l with
  | [] => dflt
  | x :: xs => xs.foldl max x

/-- Python `min(l)` for a list known non-empty at the call site; the default
is the value the surrounding Python expression supplies for the empty case. -/
def listMin (l : List ℚ) (dflt : ℚ) : ℚ :=
  match l with
  | [] => dflt
  | x :: xs => xs.foldl min x

/-- Python `l[:k]`: `take k` for `k ≥ 0`, and `take (len l + k)` (clamped at
zero) for negative `k`. -/
def pySliceTo {α : Type} (k : Int) (l : List α) : List α :=
  if 0 ≤ k then l.take k.toNat else l.take (l.length - min (-k).toNat l.length)

/-! ## `Prediseño_automatizado.py`: typography and capacity model -/

/-- Embeds `TextStyle`: chars per line, line density per mm, title heights by level
(`title_heights_mm` is a dict with integer keys, embedded as an assoc list). -/
structure TextStyle where
  chars_per_line : Int
  lines_per_mm : ℚ
  title_heights_mm : List (Int × ℚ)
deriving DecidableEq

/-- Embeds `TextStyle.capacity_for_height`: clamp the height at 0, convert to lines,
and apply Python `int(...)` to `lines * chars_per_line` (the truncation is
taken on the full product, after multiplying by `chars_per_line`). -/
def TextStyle.capacity_for_height (s : TextStyle) (height_mm : ℚ) : Int :=
  let effective_height := max height_mm 0
  let lines := effective_height * s.lines_per_mm
  pyInt (lines * (s.chars_per_line : ℚ))

/-- Embeds `TextStyle.title_cost`: 0 for an absent or unknown level, otherwise the
level's height times `max(span, 1)`. -/
def TextStyle.title_cost (s : TextStyle) (level : Option Int) (span : Int) : ℚ :=
  match level with
  | none => 0
  | some lvl =>
    match s.title_heights_mm.lookup lvl with
    | none => 0
    | some base => base * ((max span 1 : Int) : ℚ)

/-- Embeds `TextStyle.defaults()`: 32 chars/line, 0.38 lines/mm, title heights
16/12/8 mm for levels 1/2/3. -/
def TextStyle.defaults : TextStyle :=
  { chars_per_line := 32
    lines_per_mm := 19 / 50
    title_heights_mm := [(1, 16), (2, 12), (3, 8)] }

/-- Embeds `ImagePreset`: a named image footprint (span in columns, height in mm). -/
structure ImagePreset where
  name : String
  span : Int
  height_mm : ℚ
deriving DecidableEq

/-- Embeds `ImagePreset.cost(span=None)`: the stored height when no span (or the
preset's own span) is requested, otherwise the height scaled linearly by
`max(requested,1) / max(base,1)`. -/
def ImagePreset.cost (p : ImagePreset) (span : Option Int) : ℚ :=
  match span with
  | none => p.height_mm
  | some s =>
    if s = p.span then p.height_mm
    else p.height_mm * ((max s 1 : Int) : ℚ) / ((max p.span 1 : Int) : ℚ)

/-- Embeds `ImagePreset.default_presets()` in its insertion order. -/
def ImagePreset.default_presets : List (String × ImagePreset) :=
  [("horizontal", { name := "horizontal", span := 2, height_mm := 43 }),
   ("vertical", { name := "vertical", span := 1, height_mm := 60 })]

/-- Embeds `CapacityModel`: a text style plus a dict of image presets. -/
structure CapacityModel where
  text_style : TextStyle
  image_presets : List (String × ImagePreset)
deriving DecidableEq

/-- Embeds `CapacityModel.title_cost`: direct interface to the text style's cost. -/
def CapacityModel.title_cost (m : CapacityModel) (level : Option Int) (span : Int) : ℚ :=
  m.text_style.title_cost level span

/-- Embeds `CapacityModel.image_cost(name, span)`: `none` models the `KeyError`
raised for an unknown preset; otherwise the preset's cost at the requested
span (or at the preset's own span when the argument is `None`). -/
def CapacityModel.image_cost (m : CapacityModel) (name : String) (span : Option Int) :
    Option ℚ :=
  (m.image_presets.lookup name).map (fun p => p.cost (some (span.getD p.span)))

/-- Embeds `CapacityModel.capacity_per_column`: reserve the title cost and, when an
image preset name is supplied (and truthy), its cost at the given span — a
`KeyError` for an unknown name is caught and the reservation skipped; the
remaining height (clamped at 0) is converted to characters and multiplied by
`max(span, 1)`. -/
def CapacityModel.capacity_per_column (m : CapacityModel) (column_height_mm : ℚ)
    (span : Int) (title_level : Option Int) (image_preset : Option String) : Int :=
  let reserved_height := m.text_style.title_cost title_level span
  let reserved_height :=
    match image_preset with
    | none => reserved_height
    | some name =>
      -- `if image_preset:` — the empty string is falsy in Python
      if name = "" then reserved_height
      else
        match m.image_cost name (some span) with
        | some c => reserved_height + c
        | none => reserved_height  -- KeyError caught: warning logged, skip
  let available_height := max (column_height_mm - reserved_height) 0
  let per_column := m.text_style.capacity_for_height available_height
  per_column * max span 1

/-! ## Data model: notes and page geometry -/

/-- Embeds `Note` (dataclass from `Prediseño_automatizado.py`). The dataclass's
`source: Optional[Path]` field is omitted (never read by the core). The three
`Option` fields model dynamic attributes that the solver reads through
`getattr(note, ..., None)` and that the dataclass itself does not declare:
`none` means the attribute is absent. -/
structure Note where
  note_id : Int
  title : String
  body : String
  chars_title : Int
  chars_body : Int
  words : Int
  title_level : Option Int
  image_mode : Option String
  image_count : Option Int
deriving DecidableEq

/-- Embeds `PageGeometry` (dataclass from `Prediseño_automatizado.py`);
`usable_rect_mm` is the 4-tuple `(x, y, w, h)` and `margins_mm` a dict. -/
structure PageGeometry where
  page_number : Int
  name : String
  usable_rect_mm : ℚ × ℚ × ℚ × ℚ
  columns : Int
  gutter_mm : ℚ
  column_width_mm : ℚ
  margins_mm : List (String × ℚ)
  slots_mm : List (ℚ × ℚ × ℚ × ℚ)
deriving DecidableEq

/-! ## Variant generation (`Prediseño_automatizado.py`) -/

/-- Embeds `ColumnFootprint` dataclass. -/
structure ColumnFootprint where
  span : Int
  column_heights_mm : List ℚ
  penalties : List (String × ℚ)
  image_priority : Int
  image_preset : Option String
deriving DecidableEq

/-- Embeds `NoteVariant` dataclass. -/
structure NoteVariant where
  note_id : Int
  title_span : Int
  span : Int
  image_preset : Option String
  total_height_mm : ℚ
  text_height_mm : ℚ
  footprint : ColumnFootprint
deriving DecidableEq

/-- Embeds `_image_order_index`: `None → 2`, `"vertical" → 1`, anything else → 0. -/
def _image_order_index (image : Option String) : Int :=
  match image with
  | none => 2
  | some s => if s.toLower = "vertical" then 1 else 0

/-- Embeds `_image_priority`: `None → 0`, `"vertical" → 1`, anything else → 2. -/
def _image_priority (image : Option String) : Int :=
  match image with
  | none => 0
  | some s => if s.toLower = "vertical" then 1 else 2

/-- Embeds `NoteVariant.preference_key()` (the sort key of a variant). -/
def NoteVariant.preference_key (v : NoteVariant) : Int × Int × ℚ :=
  (v.title_span, _image_order_index v.image_preset, v.total_height_mm)

/-- Python's lexicographic `≤` on the 3-tuples produced by
`preference_key`, as the boolean comparator for the (stable) list sort. -/
def tupleLE (x y : Int × Int × ℚ) : Bool :=
  decide (x.1 < y.1) ||
    (decide (x.1 = y.1) &&
      (decide (x.2.1 < y.2.1) ||
        (decide (x.2.1 = y.2.1) && decide (x.2.2 ≤ y.2.2))))

/-- Embeds `estimate_text_height_mm`: body height needed for the note's characters
spread over `span` columns. -/
def estimate_text_height_mm (note : Note) (model : CapacityModel) (span : Int) : ℚ :=
  let span := max span 1
  let chars_per_column := model.text_style.chars_per_line * span
  if chars_per_column ≤ 0 then 0
  else
    let estimated_lines := (note.chars_body : ℚ) / (chars_per_column : ℚ)
    -- `... if model.text_style.lines_per_mm else 0.0`
    if model.text_style.lines_per_mm = 0 then 0
    else estimated_lines / model.text_style.lines_per_mm

/-- Embeds `generate_note_variants`: enumerate (title span × image option) variants
and return them sorted by `preference_key` (Python's stable sort). The Python
defaults are `title_spans = (1, 2)` and `title_level = 1`. -/
def generate_note_variants (note : Note) (model : CapacityModel)
    (title_spans : List Int) (title_level : Int) : List NoteVariant :=
  let available_presets := model.image_presets
  let image_options : List (Option String) :=
    [none]
    ++ (if (available_presets.lookup "vertical").isSome then [some "vertical"] else [])
    ++ (if (available_presets.lookup "horizontal").isSome then [some "horizontal"]
        else
          -- first preset with span ≥ 2, in insertion order (`break` after one)
          match available_presets.find? (fun p => p.2.span ≥ 2) with
          | some p => [some p.1]
          | none => [])
  let variants := title_spans.flatMap (fun title_span =>
    if title_span ≤ 0 then []
    else
      let title_height_total := model.title_cost (some title_level) title_span
      let title_height_per_column := title_height_total / (title_span : ℚ)
      image_options.map (fun image_name =>
        -- `available_presets.get(image_name) if image_name else None`
        let preset := image_name.bind (fun nm =>
          if nm = "" then none else available_presets.lookup nm)
        let image_span : Int := match preset with | some p => p.span | none => 0
        let span := max title_span (max image_span 1)
        let text_height := estimate_text_height_mm note model span
        -- `model.image_cost(image_name, span) if image_name else 0.0`; the
        -- name is drawn from the preset dict, so the KeyError path is dead
        let image_height_total := match image_name with
          | some nm => (model.image_cost nm (some span)).getD 0
          | none => 0
        let image_height_per_column :=
          if image_span ≠ 0 then image_height_total / (image_span : ℚ) else 0
        let column_heights := (List.range span.toNat).map (fun col =>
          text_height
          + (if (col : Int) < title_span then title_height_per_column else 0)
          + (if image_span ≠ 0 ∧ (col : Int) < image_span then image_height_per_column
             else 0))
        let total_height := listMax column_heights 0
        let available_chars :=
          model.capacity_per_column total_height span (some title_level) image_name
        let overflow := max (note.chars_body - available_chars) 0
        let slack := max (available_chars - note.chars_body) 0
        let penalties : List (String × ℚ) :=
          (if overflow ≠ 0 then [("overflow_chars", (overflow : ℚ))] else [])
          ++ (if slack ≠ 0 then [("unused_capacity", (slack : ℚ))] else [])
          ++ (if image_name = none then [("missing_image", (1 : ℚ))] else [])
        let footprint : ColumnFootprint :=
          { span := span
            column_heights_mm := column_heights
            penalties := penalties
            image_priority := _image_priority image_name
            image_preset := image_name }
        { note_id := note.note_id
          title_span := title_span
          span := span
          image_preset := image_name
          total_height_mm := total_height
          text_height_mm := text_height
          footprint := footprint }))
  variants.mergeSort (fun a b => tupleLE a.preference_key b.preference_key)

/-- Embeds `generate_variants_for_notes`: the per-note variant catalog. -/
def generate_variants_for_notes (notes : List Note) (model : CapacityModel)
    (title_spans : List Int) (title_level : Int) : List (Int × List NoteVariant) :=
  notes.map (fun note =>
    (note.note_id, generate_note_variants note model title_spans title_level))

/-! ## `src/solver.py`: the variant-based beam-search solver -/

/-- Embeds `PlanSettings` (frozen dataclass). `PlanSettings.default` carries the
dataclass's default values. The `*_attr` strings configure which dynamic
attribute names the solver reads; the embedding specialises attribute reads
to the default names (the only ones any caller in the repository uses). -/
structure PlanSettings where
  beam_width : Int
  fit_bonus : ℚ
  gap_penalty_per_mm : ℚ
  overflow_penalty_per_char : ℚ
  overfill_penalty_per_mm : ℚ
  drop_penalty : ℚ
  final_gap_penalty_per_mm : ℚ
  default_title_level : Option Int
  default_image_preset : Option String
  title_level_attr : String
  image_mode_attr : String
  image_count_attr : String
  body_chars_attr : String
  unused_capacity_penalty_per_char : ℚ
  mordida_penalty_per_line : ℚ
  missing_image_penalty : ℚ
deriving DecidableEq

/-- The dataclass defaults of `PlanSettings`. -/
def PlanSettings.default : PlanSettings :=
  { beam_width := 8
    fit_bonus := 8
    gap_penalty_per_mm := 18 / 100
    overflow_penalty_per_char := 12 / 100
    overfill_penalty_per_mm := 65 / 100
    drop_penalty := 10
    final_gap_penalty_per_mm := 25 / 100
    default_title_level := some 1
    default_image_preset := none
    title_level_attr := "title_level"
    image_mode_attr := "image_mode"
    image_count_attr := "image_count"
    body_chars_attr := "chars_body"
    unused_capacity_penalty_per_char := 2 / 100
    mordida_penalty_per_line := 1 / 2
    missing_image_penalty := 3 / 2 }

/-- Embeds `Assignment` (frozen dataclass): one placement decision. -/
structure Assignment where
  note : Note
  column_index : Nat
  span : Nat
  start_mm : ℚ
  used_height_mm : ℚ
  column_heights_mm : List ℚ
  column_body_heights_mm : List ℚ
  column_title_heights_mm : List ℚ
  column_image_heights_mm : List ℚ
  title_height_mm : ℚ
  body_height_mm : ℚ
  image_height_mm : ℚ
  body_chars_fit : Int
  body_chars_overflow : Int
  img_mode : String
  fit : Bool
  remaining_mm : ℚ
  title_lines : ℚ
  body_lines : ℚ
  image_span : Int
deriving DecidableEq

/-- Embeds `SolverOutcome` (frozen dataclass): the solver's final result. -/
structure SolverOutcome where
  assignments : List Assignment
  dropped_notes : List Note
  column_usage_mm : List ℚ
  column_gaps_mm : List ℚ
  logs : List String
  score : ℚ
deriving DecidableEq

/-- Embeds `_BeamState` (frozen dataclass): a partial search state. -/
structure _BeamState where
  score : ℚ
  columns_used_mm : List ℚ
  assignments : List Assignment
  dropped : List Note
  logs : List String
deriving DecidableEq

/-- Renders a rational with one decimal digit. It stands in for the `:.1f`
float formatting of the Python trace strings (no claim depends on these
digits). -/
def fmtMm1 (q : ℚ) : String :=
  let scaled : Int := (q * 10 + 1 / 2).floor
  toString (scaled / 10) ++ "." ++ toString (scaled % 10).natAbs

/-- The trace line `push_assignment` appends. -/
def assignmentLog (assignment : Assignment) : String :=
  let first_col := assignment.column_index + 1
  let last_col := first_col + assignment.span - 1
  let label :=
    if assignment.span > 1 then toString first_col ++ "-" ++ toString last_col
    else toString first_col
  "columna(s) " ++ label ++ ": nota " ++ toString assignment.note.note_id
    ++ " · span=" ++ toString assignment.span
    ++ " · fit=" ++ (if assignment.fit then "sí" else "no")
    ++ " · rem=" ++ fmtMm1 assignment.remaining_mm ++ "mm"
    ++ " · overflow=" ++ toString assignment.body_chars_overflow

/-- Embeds `_BeamState.push_assignment`: raise every spanned column's usage to
`min(column_height, max(used, start_mm) + height)` (indices past the end of
the usage vector are skipped), append the assignment, add the score delta and
the trace line. -/
def _BeamState.push_assignment (s : _BeamState) (assignment : Assignment)
    (score_delta : ℚ) (column_height : ℚ) : _BeamState :=
  { score := s.score + score_delta
    columns_used_mm := assignment.column_heights_mm.enum.foldl
      (fun used pair =>
        -- `idx = assignment.column_index + offset`; out-of-range indices are
        -- skipped (`continue`), in-range ones raised to
        -- `min(column_height, max(used[idx], start_mm) + height)`
        if assignment.column_index + pair.1 < used.length then
          used.set (assignment.column_index + pair.1)
            (min column_height
              (max (used.getD (assignment.column_index + pair.1) 0)
                assignment.start_mm + pair.2))
        else used)
      s.columns_used_mm
    assignments := s.assignments ++ [assignment]
    dropped := s.dropped
    logs := s.logs ++ [assignmentLog assignment] }

/-- Embeds `_BeamState.push_drop`: drop the note, pay the penalty, trace it. -/
def _BeamState.push_drop (s : _BeamState) (note : Note) (penalty : ℚ)
    (reason : String) : _BeamState :=
  { score := s.score - penalty
    columns_used_mm := s.columns_used_mm
    assignments := s.assignments
    dropped := s.dropped ++ [note]
    logs := s.logs ++
      ["descartar nota " ++ toString note.note_id ++ " (" ++ reason ++ ")"] }

/-- Embeds `_chars_for_note(note, attr)` with the default attribute `chars_body`,
which the `Note` dataclass always defines as an `int` (so the `int(value or
0)` conversion is the identity). -/
def _chars_for_note (note : Note) : Int :=
  note.chars_body

/-- Embeds `_resolve_title_level`: the note's positive `title_level` attribute, else
the settings default. -/
def _resolve_title_level (note : Note) (settings : PlanSettings) : Option Int :=
  match note.title_level with
  | none => settings.default_title_level
  | some level => if level > 0 then some level else settings.default_title_level

/-- The nested `_fallback()` of `_resolve_image_mode`: the settings' default
preset when it names a known one, else the first preset in insertion order,
else no image. -/
def _image_mode_fallback (capacity_model : CapacityModel)
    (settings : PlanSettings) : String × ℚ :=
  match settings.default_image_preset.bind (fun nm =>
      -- `if preset_name and preset_name in ...` — "" is falsy
      if nm = "" then none else capacity_model.image_presets.lookup nm) with
  | some preset => (preset.name, preset.cost none)
  | none =>
    match capacity_model.image_presets with
    | [] => ("none", 0)
    | (_, preset) :: _ => (preset.name, preset.cost none)

/-- Embeds `_resolve_image_mode`: pick the note's requested preset when it names a
known one; otherwise, when the note carries a positive `image_count`, fall
back to the settings default preset or the first preset; otherwise no image. -/
def _resolve_image_mode (note : Note) (capacity_model : CapacityModel)
    (settings : PlanSettings) : String × ℚ :=
  if capacity_model.image_presets.isEmpty then ("none", 0)
  else
    match note.image_mode.bind (fun raw_mode =>
        (capacity_model.image_presets.lookup raw_mode).map
          (fun preset => (preset.name, preset.cost none))) with
    | some r => r
    | none =>
      if note.image_count.getD 0 ≤ 0 then ("none", 0)
      else _image_mode_fallback capacity_model settings

/-- Embeds `_body_height_from_chars` (height needed for a character count). -/
def _body_height_from_chars (chars : Int) (capacity_model : CapacityModel) : ℚ :=
  let density :=
    (capacity_model.text_style.chars_per_line : ℚ) * capacity_model.text_style.lines_per_mm
  if density ≤ 0 then 0 else (chars : ℚ) / density

/-- The view of a variant's `footprint` that `_evaluate_variant_placement`
reads through `getattr`. A `ColumnFootprint` from the catalog does not define
the per-component height lists, so they default to `[]` (the `getattr`
default `()`); the fallback `SimpleNamespace` footprint defines all of them. -/
structure DynFootprint where
  column_heights_mm : List ℚ
  column_body_heights_mm : List ℚ
  column_title_heights_mm : List ℚ
  column_image_heights_mm : List ℚ
  penalties : List (String × ℚ)
  image_priority : ℚ
deriving DecidableEq

/-- The duck-typed view of a variant as the solver reads it: `Option` fields
are attributes that may be absent (`getattr` default applied at the read
site); the remaining fields default to the corresponding `getattr` default
when the underlying object does not define them. -/
structure DynVariant where
  span : Int
  footprint : Option DynFootprint
  body_chars_overflow : Int
  body_chars_fit : Int
  total_height_mm : Option ℚ
  title_height_mm : Option ℚ
  body_height_mm : Option ℚ
  image_height_mm : Option ℚ
  image_preset : Option String
  title_lines : ℚ
  body_lines : ℚ
  image_span : Int
deriving DecidableEq

/-- How the solver sees a catalog `NoteVariant`: the dataclass defines
`span`, `footprint`, `total_height_mm` and `image_preset`; every other
attribute the solver asks for is absent and resolves to its `getattr`
default. -/
def NoteVariant.toDyn (v : NoteVariant) : DynVariant :=
  { span := v.span
    footprint := some
      { column_heights_mm := v.footprint.column_heights_mm
        column_body_heights_mm := []
        column_title_heights_mm := []
        column_image_heights_mm := []
        penalties := v.footprint.penalties
        image_priority := (v.footprint.image_priority : ℚ) }
    body_chars_overflow := 0
    body_chars_fit := 0
    total_height_mm := some v.total_height_mm
    title_height_mm := none
    body_height_mm := none
    image_height_mm := none
    image_preset := v.image_preset
    title_lines := 0
    body_lines := 0
    image_span := 0 }

/-- Embeds `_variant_span`: `int(getattr(variant, "span", 1) or 1)` clamped to ≥ 1
(`or 1` maps a zero span to 1, and `max(span, 1)` absorbs that case). -/
def _variant_span (variant : DynVariant) : Nat :=
  (max variant.span 1).toNat

/-- Embeds `_take_span`: the first `span` values, zero-padded up to `span` (for
`span = 0` Python's post-append bound check still keeps one element of a
non-empty input). -/
def _take_span (values : List ℚ) (span : Nat) : List ℚ :=
  let taken := if span = 0 then values.take 1 else values.take span
  taken ++ List.replicate (span - taken.length) 0

/-- Embeds `_PlacementEvaluation` (an assignment with its score delta). -/
structure _PlacementEvaluation where
  assignment : Assignment
  score_delta : ℚ
deriving DecidableEq

/-- Embeds `_evaluate_variant_placement`: reject the variant when any spanned column
would end more than the tolerance past the column height; otherwise build the
`Assignment` and its score delta from the variant's footprint and penalties. -/
def _evaluate_variant_placement (note : Note) (variant : DynVariant)
    (column_index : Nat) (start_mm : ℚ) (column_height : ℚ)
    (settings : PlanSettings) : Option _PlacementEvaluation :=
  let span := _variant_span variant
  match variant.footprint with
  | none => none
  | some footprint =>
    let column_heights := _take_span footprint.column_heights_mm span
    if column_heights.isEmpty then none
    else
      let tolerance : ℚ := 1 / 1000000
      if column_heights.any (fun height =>
          decide (start_mm + height - column_height > tolerance)) then none
      else
        let end_levels := column_heights.map (fun height => start_mm + height)
        let remaining_mm := listMin (end_levels.map (fun e => column_height - e))
          column_height
        let body_chars_overflow := variant.body_chars_overflow
        let fit := decide (body_chars_overflow ≤ 0)
          && decide (remaining_mm ≥ -tolerance)
        let score_delta : ℚ :=
          if fit then settings.fit_bonus
          else if body_chars_overflow > 0 then
            -(settings.overflow_penalty_per_char * (body_chars_overflow : ℚ))
          else 0
        let penalties := footprint.penalties
        let penGet := fun (key : String) => (penalties.lookup key).getD 0
        let score_delta := score_delta -
          (if penGet "unused_capacity" ≠ 0 then
            settings.unused_capacity_penalty_per_char * penGet "unused_capacity"
           else 0)
        let score_delta := score_delta -
          (if penGet "title_mordida_lines" ≠ 0 then
            settings.mordida_penalty_per_line * penGet "title_mordida_lines"
           else 0)
        let score_delta := score_delta -
          (if penGet "body_mordida_lines" ≠ 0 then
            settings.mordida_penalty_per_line * penGet "body_mordida_lines"
           else 0)
        let score_delta := score_delta -
          (if penGet "missing_image" ≠ 0 then
            settings.missing_image_penalty * penGet "missing_image"
           else 0)
        let score_delta := penalties.foldl (fun acc kv =>
          if kv.1 ∈ ["overflow_chars", "unused_capacity", "title_mordida_lines",
              "body_mordida_lines", "missing_image"] then acc
          else acc - kv.2) score_delta
        let score_delta := score_delta + footprint.image_priority * (5 / 100)
        let column_body := _take_span footprint.column_body_heights_mm span
        let column_title := _take_span footprint.column_title_heights_mm span
        let column_image := _take_span footprint.column_image_heights_mm span
        let total_height := variant.total_height_mm.getD (listMax column_heights 0)
        let title_height := variant.title_height_mm.getD (listMax column_title 0)
        let body_height := variant.body_height_mm.getD (listMax column_body 0)
        let image_height := variant.image_height_mm.getD (listMax column_image 0)
        let assignment : Assignment :=
          { note := note
            column_index := column_index
            span := span
            start_mm := start_mm
            used_height_mm := total_height
            column_heights_mm := column_heights
            column_body_heights_mm := column_body
            column_title_heights_mm := column_title
            column_image_heights_mm := column_image
            title_height_mm := title_height
            body_height_mm := body_height
            image_height_mm := image_height
            body_chars_fit := variant.body_chars_fit
            body_chars_overflow := body_chars_overflow
            img_mode :=
              match variant.image_preset with
              | some s => if s = "" then "none" else s  -- `... or "none"`
              | none => "none"
            fit := fit
            remaining_mm := max remaining_mm 0
            title_lines := variant.title_lines
            body_lines := variant.body_lines
            image_span := variant.image_span }
        some { assignment := assignment, score_delta := score_delta }

/-- Embeds `_lookup_variants`: the catalog entry for the id. With the integer keys
the repository uses, the Python retry with `int(note_id)` / `str(note_id)`
coercions collapses into the direct lookup. -/
def _lookup_variants (note_id : Int)
    (variants_by_note : List (Int × List NoteVariant)) : List NoteVariant :=
  (variants_by_note.lookup note_id).getD []

/-- The `title_height` local of `_build_fallback_variants`:
`capacity_model.title_cost(title_level) if title_level else 0.0` (`if` on a
Python int is false for `None` and `0`). -/
def _fallback_title_height (note : Note) (capacity_model : CapacityModel)
    (settings : PlanSettings) : ℚ :=
  match _resolve_title_level note settings with
  | none => 0
  | some lvl => if lvl = 0 then 0 else capacity_model.title_cost (some lvl) 1

/-- The `lines_per_mm` local of `_build_fallback_variants`:
`capacity_model.text_style.lines_per_mm or 1.0`. -/
def _fallback_lines_per_mm (capacity_model : CapacityModel) : ℚ :=
  if capacity_model.text_style.lines_per_mm = 0 then 1
  else capacity_model.text_style.lines_per_mm

/-- The `chars_per_line` local of `_build_fallback_variants`:
`capacity_model.text_style.chars_per_line or 1`. -/
def _fallback_chars_per_line (capacity_model : CapacityModel) : Int :=
  if capacity_model.text_style.chars_per_line = 0 then 1
  else capacity_model.text_style.chars_per_line

/-- The `body_height` local of `_build_fallback_variants`: the height of the
lines the body needs (`ceil(chars / chars_per_line) / lines_per_mm`),
clamped to the height left after the title and image reservations. -/
def _fallback_body_height (note : Note) (capacity_model : CapacityModel)
    (column_height : ℚ) (settings : PlanSettings) : ℚ :=
  if _chars_for_note note > 0 ∧ _fallback_chars_per_line capacity_model > 0 then
    min
      (((((_chars_for_note note : ℚ) /
        ((_fallback_chars_per_line capacity_model : Int) : ℚ)).ceil : Int) : ℚ) /
        _fallback_lines_per_mm capacity_model)
      (max (column_height - _fallback_title_height note capacity_model settings
        - (_resolve_image_mode note capacity_model settings).2) 0)
  else 0

/-- Embeds `_build_fallback_variants`: synthesize a single single-column variant for
a note that has no catalog entry. -/
def _build_fallback_variants (note : Note) (capacity_model : CapacityModel)
    (column_height : ℚ) (settings : PlanSettings) : List DynVariant :=
  let title_height := _fallback_title_height note capacity_model settings
  let img_mode := (_resolve_image_mode note capacity_model settings).1
  let image_height := (_resolve_image_mode note capacity_model settings).2
  let lines_per_mm := _fallback_lines_per_mm capacity_model
  let body_chars := _chars_for_note note
  let body_height := _fallback_body_height note capacity_model column_height settings
  let capacity_chars := capacity_model.text_style.capacity_for_height body_height
  let body_chars_fit := min capacity_chars body_chars
  let overflow := max (body_chars - body_chars_fit) 0
  let penalties : List (String × ℚ) :=
    (if overflow ≠ 0 then [("overflow_chars", (overflow : ℚ))] else [])
    ++ (if img_mode = "none" then [("missing_image", (1 : ℚ))] else [])
  let footprint : DynFootprint :=
    { column_heights_mm := [title_height + image_height + body_height]
      column_body_heights_mm := [body_height]
      column_title_heights_mm := [title_height]
      column_image_heights_mm := [image_height]
      penalties := penalties
      image_priority := 0 }
  [{ span := 1
     footprint := some footprint
     body_chars_overflow := overflow
     body_chars_fit := body_chars_fit
     total_height_mm := some (title_height + image_height + body_height)
     title_height_mm := some title_height
     body_height_mm := some body_height
     image_height_mm := some image_height
     image_preset := if img_mode = "none" then none else some img_mode
     title_lines := title_height * lines_per_mm
     body_lines := body_height * lines_per_mm
     image_span := if img_mode ≠ "none" then 1 else 0 }]

/-- Embeds `_variants_for_note`: the catalog's variants for the note when a
(non-empty) catalog has a non-empty entry for its id, otherwise the fallback
variant. -/
def _variants_for_note (note : Note)
    (variants_by_note : Option (List (Int × List NoteVariant)))
    (capacity_model : CapacityModel) (column_height : ℚ)
    (settings : PlanSettings) : List DynVariant :=
  match variants_by_note with
  | some catalog =>
    -- `if variants_by_note:` — an empty mapping is falsy
    if catalog.isEmpty then
      _build_fallback_variants note capacity_model column_height settings
    else if (_lookup_variants note.note_id catalog).isEmpty then
      _build_fallback_variants note capacity_model column_height settings
    else (_lookup_variants note.note_id catalog).map NoteVariant.toDyn
  | none => _build_fallback_variants note capacity_model column_height settings

/-- The placement branch of the per-note expansion for one beam state: for
every variant whose span fits the page and every feasible starting column,
the expanded state (the inner `for variant` / `for col_idx` loops of
`solve_page_layout`, in their iteration order). -/
def placement_candidates (columns : Nat) (column_height : ℚ)
    (settings : PlanSettings) (note : Note) (note_variants : List DynVariant)
    (state : _BeamState) : List _BeamState :=
  note_variants.flatMap (fun variant =>
    if _variant_span variant > columns then []
    else
      (List.range (columns - _variant_span variant + 1)).filterMap (fun col_idx =>
        if ((state.columns_used_mm.drop col_idx).take
            (_variant_span variant)).length < _variant_span variant then none
        else
          match _evaluate_variant_placement note variant col_idx
              (listMax ((state.columns_used_mm.drop col_idx).take
                (_variant_span variant)) 0)
              column_height settings with
          | none => none
          | some evaluation =>
            if evaluation.assignment.used_height_mm ≤ 0 then none
            else some (state.push_assignment evaluation.assignment
              evaluation.score_delta column_height)))

/-- The full per-note expansion of one beam state: its placement candidates,
or — only when there is none (`if not placed:`) — the single drop state. -/
def stateCandidates (columns : Nat) (column_height : ℚ) (settings : PlanSettings)
    (note : Note) (note_variants : List DynVariant) (state : _BeamState) :
    List _BeamState :=
  if (placement_candidates columns column_height settings note note_variants
      state).isEmpty then
    [state.push_drop note settings.drop_penalty "sin espacio"]
  else placement_candidates columns column_height settings note note_variants state

/-- One round of the `for note in notes` loop: expand every beam state, then
sort the candidates by score descending (Python's stable sort with
`reverse=True`) and keep the first `beam_width`. -/
def solveStep (columns : Nat) (column_height : ℚ) (capacity_model : CapacityModel)
    (settings : PlanSettings)
    (variants_by_note : Option (List (Int × List NoteVariant)))
    (beam : List _BeamState) (note : Note) : List _BeamState :=
  if (beam.flatMap (stateCandidates columns column_height settings note
      (_variants_for_note note variants_by_note capacity_model column_height
        settings))).isEmpty then
    beam.map (fun state => state.push_drop note settings.drop_penalty "sin candidatos")
  else
    pySliceTo settings.beam_width
      ((beam.flatMap (stateCandidates columns column_height settings note
          (_variants_for_note note variants_by_note capacity_model column_height
            settings))).mergeSort
        (fun a b => decide (b.score ≤ a.score)))

/-- The initial beam state: zero usage in every column, nothing decided. -/
def _initial_state (columns : Nat) : _BeamState :=
  { score := 0
    columns_used_mm := List.replicate columns 0
    assignments := []
    dropped := []
    logs := [] }

/-- The adjusted score of a state at final selection: its score minus the
total-gap penalty and (when positive) the gap-imbalance penalty. -/
def _final_score (column_height : ℚ) (settings : PlanSettings)
    (state : _BeamState) : ℚ :=
  let gaps := state.columns_used_mm.map (fun used => max (column_height - used) 0)
  let total_gap := gaps.foldl (· + ·) 0
  let penalty := settings.final_gap_penalty_per_mm * total_gap
  let penalty :=
    if ¬gaps.isEmpty ∧ settings.gap_penalty_per_mm > 0 then
      let imbalance := listMax gaps 0 - listMin gaps 0
      if imbalance > 0 then penalty + settings.gap_penalty_per_mm * imbalance
      else penalty
    else penalty
  state.score - penalty

/-- One iteration of the final-selection loop: keep whichever of the best so
far and the scanned state has the higher adjusted score (strictly better to
replace, as in the Python comparison). -/
def _select_best_step (column_height : ℚ) (settings : PlanSettings)
    (acc : Option (_BeamState × ℚ)) (state : _BeamState) :
    Option (_BeamState × ℚ) :=
  match acc with
  | none => some (state, _final_score column_height settings state)
  | some best =>
    if _final_score column_height settings state > best.2 then
      some (state, _final_score column_height settings state)
    else acc

/-- The final-selection loop over the surviving beam; `none` models the
Python loop leaving `best_state = None` on an empty beam (`float("-inf")`
never wins a comparison against a real score). -/
def _select_best (column_height : ℚ) (settings : PlanSettings)
    (beam : List _BeamState) : Option (_BeamState × ℚ) :=
  beam.foldl (_select_best_step column_height settings) none

/-- The final trace line listing the per-column gaps. -/
def finalGapsLog (column_gaps : List ℚ) : String :=
  "huecos finales: " ++ String.intercalate ", "
    (column_gaps.enum.map (fun pair =>
      "col " ++ toString (pair.1 + 1) ++ " → " ++ fmtMm1 pair.2 ++ "mm"))

/-- Embeds `solve_page_layout` (the variant-based revision, `src/solver.py`): the
degenerate-geometry early return, then the beam search over the notes and
the final selection. The Python defaults are `settings = PlanSettings()` and
`variants_by_note = None`. -/
def solve_page_layout (page_geom : PageGeometry) (notes : List Note)
    (capacity_model : CapacityModel) (settings : PlanSettings)
    (variants_by_note : Option (List (Int × List NoteVariant))) : SolverOutcome :=
  let columns : Int := page_geom.columns
  let column_height : ℚ := page_geom.usable_rect_mm.2.2.2
  if columns ≤ 0 ∨ column_height ≤ 0 then
    { assignments := []
      dropped_notes := notes
      column_usage_mm := List.replicate (max columns 0).toNat 0
      column_gaps_mm := List.replicate (max columns 0).toNat column_height
      logs := ["sin columnas disponibles; todas las notas quedan pendientes"]
      score := -(settings.drop_penalty * (notes.length : ℚ)) }
  else
    let cols := columns.toNat
    let initial := _initial_state cols
    let beam := notes.foldl
      (solveStep cols column_height capacity_model settings variants_by_note)
      [initial]
    let best := _select_best column_height settings beam
    let best_state := (best.map Prod.fst).getD initial
    let best_score := (best.map Prod.snd).getD initial.score
    let column_usage := best_state.columns_used_mm
    let column_gaps := column_usage.map (fun used => max (column_height - used) 0)
    { assignments := best_state.assignments
      dropped_notes := best_state.dropped
      column_usage_mm := column_usage
      column_gaps_mm := column_gaps
      logs := best_state.logs ++ [finalGapsLog column_gaps]
      score := best_score }

/-! ## Specification-side predicates and concrete fixtures -/

/-- The well-formedness invariants of the capacity model, as the spec's data
model states them: positive character and line densities, non-negative title
heights, non-negative preset heights. -/
def CapacityModel.WF (m : CapacityModel) : Prop :=
  0 < m.text_style.chars_per_line ∧ 0 < m.text_style.lines_per_mm ∧
    List.Forall (fun p => 0 ≤ p.2) m.text_style.title_heights_mm ∧
    List.Forall (fun p => 0 ≤ p.2.height_mm) m.image_presets

/-- Every per-column height of every variant of the catalog is
non-negative. -/
def CatalogHeightsNonneg
    (variants_by_note : Option (List (Int × List NoteVariant))) : Prop :=
  match variants_by_note with
  | none => True
  | some catalog =>
    List.Forall (fun e =>
      List.Forall (fun v =>
        List.Forall (fun x => (0 : ℚ) ≤ x) v.footprint.column_heights_mm) e.2)
      catalog

/-- Modelled from the spec's words, for comparison with the code's
`_image_order_index`: the image-preference index as the claim orders it,
"vertical" strictly before "horizontal"/other presets, and those strictly
before no image. -/
def claimed_image_order_index (image : Option String) : Int :=
  match image with
  | none => 2
  | some s => if s.toLower = "vertical" then 0 else 1

/-! ## Fixtures used by the concrete witnesses and counterexamples -/

/-- The default capacity model (typography defaults, default image presets). -/
def cmX : CapacityModel :=
  { text_style := TextStyle.defaults
    image_presets := ImagePreset.default_presets }

/-- A one-column page, 100 mm of usable column height. -/
def geomX : PageGeometry :=
  { page_number := 1
    name := "p1"
    usable_rect_mm := (0, 0, 50, 100)
    columns := 1
    gutter_mm := 4
    column_width_mm := 50
    margins_mm := []
    slots_mm := [] }

/-- The same page with zero columns (degenerate geometry). -/
def geomDeg : PageGeometry :=
  { geomX with columns := 0 }

/-- A note with a 100-character body and no dynamic attributes. -/
def noteX : Note :=
  { note_id := 1
    title := "t"
    body := "b"
    chars_title := 1
    chars_body := 100
    words := 20
    title_level := none
    image_mode := none
    image_count := none }

/-- A note with an empty body (used for the variant-ordering inputs). -/
def noteY : Note :=
  { note_id := 2
    title := "t"
    body := ""
    chars_title := 1
    chars_body := 0
    words := 0
    title_level := none
    image_mode := none
    image_count := none }

/-! ## Basic lemmas about the embedding's primitives -/

/-- Computable `Rat.floor` agrees with the mathematical floor. -/
theorem ratFloor_eq_intFloor (q : ℚ) : q.floor = ⌊q⌋ := by
  rw [Rat.floor_def', Rat.floor_def]

/-- Computable `Rat.ceil` of a non-negative rational is non-negative. -/
theorem ratCeil_nonneg {q : ℚ} (h : 0 ≤ q) : 0 ≤ q.ceil := by
  unfold Rat.ceil
  have hn : 0 ≤ q.num := Rat.num_nonneg.mpr h
  split
  · exact hn
  · positivity

/-- A successful assoc-list lookup returns a pair of the list. -/
theorem lookup_mem {α β : Type} [BEq α] [LawfulBEq α] {l : List (α × β)} {k : α}
    {v : β} (h : l.lookup k = some v) : (k, v) ∈ l := by
  induction l with
  | nil => simp [List.lookup] at h
  | cons p rest ih =>
    rw [List.lookup] at h
    by_cases hk : k == p.1
    · simp only [hk, cond_true] at h
      obtain rfl := eq_of_beq hk
      obtain rfl : p.2 = v := by simpa using h
      exact List.mem_cons_self _ _
    · simp only [Bool.not_eq_true] at hk
      simp only [hk, cond_false] at h
      exact List.mem_cons_of_mem _ (ih h)

/-- Every element of a Python prefix slice is an element of the list. -/
theorem pySliceTo_subset {α : Type} (k : Int) (l : List α) :
    ∀ x ∈ pySliceTo k l, x ∈ l := by
  intro x hx
  unfold pySliceTo at hx
  split at hx <;> exact List.take_subset _ _ hx

/-- Every element of `_take_span` is an element of the input or the zero
padding. -/
theorem _take_span_mem {values : List ℚ} {span : Nat} :
    ∀ x ∈ _take_span values span, x ∈ values ∨ x = 0 := by
  intro x hx
  unfold _take_span at hx
  rcases List.mem_append.mp hx with h | h
  · split at h <;> exact Or.inl (List.take_subset _ _ h)
  · exact Or.inr (List.eq_of_mem_replicate h)

/-! ## C3 — `TextStyle.capacity_for_height` -/

/-- C3, counterexample: at height 10 mm with the default style
(`lines_per_mm = 0.38`, `chars_per_line = 32`) the code returns
`int(10 * 0.38 * 32) = 121`, not `floor(10 * 0.38) * 32 = 96` as the claim
states. -/
theorem capacity_for_height_claim_cex :
    TextStyle.defaults.capacity_for_height 10 ≠
      ⌊max (10 : ℚ) 0 * TextStyle.defaults.lines_per_mm⌋ *
        TextStyle.defaults.chars_per_line := by
  rw [← ratFloor_eq_intFloor]
  with_unfolding_all decide

/-- C3 (amended): for a style with non-negative `chars_per_line` and
`lines_per_mm`, `capacity_for_height(height_mm)` returns
`floor(max(height_mm, 0) * lines_per_mm * chars_per_line)` — the clamp is as
claimed, but the truncation is applied to the full product (after
multiplying by `chars_per_line`), so partial lines still contribute
characters. -/
theorem capacity_for_height_eq_floor (s : TextStyle) (height_mm : ℚ)
    (hcpl : 0 ≤ s.chars_per_line) (hlpm : 0 ≤ s.lines_per_mm) :
    s.capacity_for_height height_mm
      = ⌊max height_mm 0 * s.lines_per_mm * (s.chars_per_line : ℚ)⌋ := by
  unfold TextStyle.capacity_for_height pyInt
  have hm : (0 : ℚ) ≤ max height_mm 0 := le_max_right _ _
  have hcpl' : (0 : ℚ) ≤ (s.chars_per_line : ℚ) := by exact_mod_cast hcpl
  have h0 : (0 : ℚ) ≤ max height_mm 0 * s.lines_per_mm * (s.chars_per_line : ℚ) :=
    mul_nonneg (mul_nonneg hm hlpm) hcpl'
  rw [if_pos h0, ratFloor_eq_intFloor]

/-- C3, witness: the amended theorem evaluated on the default style at
height 10 mm, where both sides equal 121. -/
theorem capacity_for_height_eq_floor_witness :
    (0 ≤ TextStyle.defaults.chars_per_line ∧ 0 ≤ TextStyle.defaults.lines_per_mm) ∧
      TextStyle.defaults.capacity_for_height 10
        = ⌊max (10 : ℚ) 0 * TextStyle.defaults.lines_per_mm *
            (TextStyle.defaults.chars_per_line : ℚ)⌋ :=
  ⟨⟨by with_unfolding_all decide, by with_unfolding_all decide⟩,
    capacity_for_height_eq_floor TextStyle.defaults 10
      (by with_unfolding_all decide) (by with_unfolding_all decide)⟩

/-! ## C8 — unknown image preset in `capacity_per_column` -/

/-- C8: for a preset name absent from the preset map, `capacity_per_column`
skips the image reservation (the `KeyError` is caught, a warning is logged)
and returns exactly the capacity of the call with no image preset; the
function is total, so it never raises. -/
theorem capacity_per_column_unknown_preset (m : CapacityModel)
    (column_height_mm : ℚ) (span : Int) (title_level : Option Int) (name : String)
    (hname : m.image_presets.lookup name = none) :
    m.capacity_per_column column_height_mm span title_level (some name)
      = m.capacity_per_column column_height_mm span title_level none := by
  by_cases hempty : name = "" <;>
    simp [CapacityModel.capacity_per_column, CapacityModel.image_cost, hname, hempty]

/-- C8, witness: the default presets know no preset called `panorama`; the
capacity at 100 mm is the no-image capacity. -/
theorem capacity_per_column_unknown_preset_witness :
    cmX.image_presets.lookup "panorama" = none ∧
      cmX.capacity_per_column 100 1 (some 1) (some "panorama")
        = cmX.capacity_per_column 100 1 (some 1) none :=
  ⟨by with_unfolding_all decide,
    capacity_per_column_unknown_preset cmX 100 1 (some 1) "panorama"
      (by with_unfolding_all decide)⟩

/-! ## C2 — degenerate geometry -/

/-- C2: with zero (or fewer) columns or a non-positive column height,
`solve_page_layout` returns immediately: no assignments, every input note
dropped in order, score exactly `-drop_penalty * len(notes)`, and exactly
one diagnostic log line; the embedded function is total, so it never
raises. -/
theorem solve_page_layout_degenerate (page_geom : PageGeometry)
    (notes : List Note) (capacity_model : CapacityModel)
    (settings : PlanSettings)
    (variants_by_note : Option (List (Int × List NoteVariant)))
    (h : page_geom.columns ≤ 0 ∨ page_geom.usable_rect_mm.2.2.2 ≤ 0) :
    (solve_page_layout page_geom notes capacity_model settings
        variants_by_note).assignments = [] ∧
    (solve_page_layout page_geom notes capacity_model settings
        variants_by_note).dropped_notes = notes ∧
    (solve_page_layout page_geom notes capacity_model settings
        variants_by_note).score
      = -(settings.drop_penalty * (notes.length : ℚ)) ∧
    (solve_page_layout page_geom notes capacity_model settings
        variants_by_note).logs
      = ["sin columnas disponibles; todas las notas quedan pendientes"] := by
  simp [solve_page_layout, if_pos h]

/-- C2, witness: the degenerate theorem evaluated on a zero-column page with
one note. -/
theorem solve_page_layout_degenerate_witness :
    (geomDeg.columns ≤ 0 ∨ geomDeg.usable_rect_mm.2.2.2 ≤ 0) ∧
      ((solve_page_layout geomDeg [noteX] cmX PlanSettings.default
          none).assignments = [] ∧
        (solve_page_layout geomDeg [noteX] cmX PlanSettings.default
          none).dropped_notes = [noteX] ∧
        (solve_page_layout geomDeg [noteX] cmX PlanSettings.default
          none).score
          = -(PlanSettings.default.drop_penalty * (([noteX] : List Note).length : ℚ)) ∧
        (solve_page_layout geomDeg [noteX] cmX PlanSettings.default
          none).logs
          = ["sin columnas disponibles; todas las notas quedan pendientes"]) :=
  ⟨by with_unfolding_all decide,
    solve_page_layout_degenerate geomDeg [noteX] cmX PlanSettings.default none
      (by with_unfolding_all decide)⟩

/-! ## C6 — ordering of `generate_note_variants` -/

/-- The tuple comparator is total. -/
theorem tupleLE_total (x y : Int × Int × ℚ) : (tupleLE x y || tupleLE y x) = true := by
  simp only [tupleLE, Bool.or_eq_true, Bool.and_eq_true, decide_eq_true_eq]
  rcases lt_trichotomy x.1 y.1 with h | h | h
  · exact Or.inl (Or.inl h)
  · rcases lt_trichotomy x.2.1 y.2.1 with h2 | h2 | h2
    · exact Or.inl (Or.inr ⟨h, Or.inl h2⟩)
    · rcases le_total x.2.2 y.2.2 with h3 | h3
      · exact Or.inl (Or.inr ⟨h, Or.inr ⟨h2, h3⟩⟩)
      · exact Or.inr (Or.inr ⟨h.symm, Or.inr ⟨h2.symm, h3⟩⟩)
    · exact Or.inr (Or.inr ⟨h.symm, Or.inl h2⟩)
  · exact Or.inr (Or.inl h)

/-- The tuple comparator is transitive. -/
theorem tupleLE_trans {x y z : Int × Int × ℚ} (h1 : tupleLE x y = true)
    (h2 : tupleLE y z = true) : tupleLE x z = true := by
  simp only [tupleLE, Bool.or_eq_true, Bool.and_eq_true, decide_eq_true_eq] at h1 h2 ⊢
  rcases h1 with h1 | ⟨e1, h1⟩
  · rcases h2 with h2 | ⟨e2, h2⟩
    · exact Or.inl (h1.trans h2)
    · exact Or.inl (e2 ▸ h1)
  · rcases h2 with h2 | ⟨e2, h2⟩
    · exact Or.inl (e1 ▸ h2)
    · refine Or.inr ⟨e1.trans e2, ?_⟩
      rcases h1 with h1 | ⟨f1, h1⟩
      · rcases h2 with h2 | ⟨f2, h2⟩
        · exact Or.inl (h1.trans h2)
        · exact Or.inl (f2 ▸ h1)
      · rcases h2 with h2 | ⟨f2, h2⟩
        · exact Or.inl (f1 ▸ h2)
        · exact Or.inr ⟨f1.trans f2, h1.trans h2⟩

/-- C6, counterexample: on a note with an empty body and the default
presets, the generated list is not sorted by the claim's key — the code's
`_image_order_index` gives "horizontal" index 0 and "vertical" index 1, so a
horizontal variant precedes the vertical variant of the same title span. -/
theorem generate_note_variants_claim_cex :
    ¬ (generate_note_variants noteY cmX [1, 2] 1).Pairwise
        (fun a b =>
          tupleLE
            (a.title_span, claimed_image_order_index a.image_preset, a.total_height_mm)
            (b.title_span, claimed_image_order_index b.image_preset, b.total_height_mm)
          = true) := by
  with_unfolding_all decide

/-- C6 (amended): `generate_note_variants` returns its variants sorted
ascending (stably) by the tuple `(title_span, image_preference_index,
total_height_mm)`, where the code's image preference index orders
"horizontal"/other presets (index 0) strictly before "vertical" (index 1),
and "vertical" strictly before no image (index 2). -/
theorem generate_note_variants_sorted (note : Note) (model : CapacityModel)
    (title_spans : List Int) (title_level : Int) :
    (generate_note_variants note model title_spans title_level).Pairwise
        (fun a b => tupleLE a.preference_key b.preference_key = true)
      ∧ _image_order_index (some "horizontal") < _image_order_index (some "vertical")
      ∧ _image_order_index (some "vertical") < _image_order_index none := by
  refine ⟨?_, by with_unfolding_all decide, by with_unfolding_all decide⟩
  unfold generate_note_variants
  exact @List.sorted_mergeSort NoteVariant
    (fun a b => tupleLE a.preference_key b.preference_key)
    (fun a b c hab hbc => tupleLE_trans hab hbc)
    (fun a b => tupleLE_total a.preference_key b.preference_key)
    _

/-! ## Decomposition of the beam search: where new states come from -/

/-- A successful `_evaluate_variant_placement` fixes the assignment's note,
column index, span and per-column heights. -/
theorem evaluate_some_fields {note : Note} {variant : DynVariant}
    {column_index : Nat} {start_mm column_height : ℚ} {settings : PlanSettings}
    {evaluation : _PlacementEvaluation}
    (h : _evaluate_variant_placement note variant column_index start_mm
      column_height settings = some evaluation) :
    evaluation.assignment.note = note ∧
    evaluation.assignment.column_index = column_index ∧
    evaluation.assignment.span = _variant_span variant ∧
    ∃ fp, variant.footprint = some fp ∧
      evaluation.assignment.column_heights_mm
        = _take_span fp.column_heights_mm (_variant_span variant) := by
  unfold _evaluate_variant_placement at h
  cases hfp : variant.footprint with
  | none => rw [hfp] at h; simp at h
  | some fp =>
    rw [hfp] at h
    simp only at h
    split at h
    · simp at h
    · split at h
      · simp at h
      · injection h with h'
        subst h'
        exact ⟨rfl, rfl, rfl, fp, rfl, rfl⟩

/-- Every member of `placement_candidates` is a `push_assignment` of the
state, produced by a successful evaluation at a feasible column with a
positive used height. -/
theorem mem_placement_candidates {columns : Nat} {column_height : ℚ}
    {settings : PlanSettings} {note : Note} {note_variants : List DynVariant}
    {state s' : _BeamState}
    (h : s' ∈ placement_candidates columns column_height settings note
      note_variants state) :
    ∃ variant ∈ note_variants, ∃ (col_idx : Nat) (start_mm : ℚ)
      (evaluation : _PlacementEvaluation),
      col_idx + _variant_span variant ≤ columns ∧
      _evaluate_variant_placement note variant col_idx start_mm column_height
        settings = some evaluation ∧
      0 < evaluation.assignment.used_height_mm ∧
      s' = state.push_assignment evaluation.assignment evaluation.score_delta
        column_height := by
  unfold placement_candidates at h
  rw [List.mem_flatMap] at h
  obtain ⟨variant, hv, hmem⟩ := h
  by_cases hspan : _variant_span variant > columns
  · rw [if_pos hspan] at hmem
    simp at hmem
  · rw [if_neg hspan] at hmem
    rw [List.mem_filterMap] at hmem
    obtain ⟨col_idx, hrange, heq⟩ := hmem
    have hbound : col_idx + _variant_span variant ≤ columns := by
      have := List.mem_range.mp hrange
      omega
    split at heq
    · simp at heq
    · split at heq
      · simp at heq
      · next evaluation heval =>
        split at heq
        · simp at heq
        · next hpos =>
          injection heq with h'
          exact ⟨variant, hv, col_idx, _, evaluation, hbound, heval,
            lt_of_not_le hpos, h'.symm⟩

/-- Every member of `stateCandidates` is a placement candidate or the single
"sin espacio" drop. -/
theorem mem_stateCandidates {columns : Nat} {column_height : ℚ}
    {settings : PlanSettings} {note : Note} {note_variants : List DynVariant}
    {state s' : _BeamState}
    (h : s' ∈ stateCandidates columns column_height settings note note_variants
      state) :
    s' ∈ placement_candidates columns column_height settings note note_variants
        state
      ∨ s' = state.push_drop note settings.drop_penalty "sin espacio" := by
  unfold stateCandidates at h
  split at h
  · right; simpa using h
  · left; exact h

/-- Every member of a `solveStep` round comes from some state of the incoming
beam, by a placement or by one of the two drop paths. -/
theorem mem_solveStep {columns : Nat} {column_height : ℚ}
    {capacity_model : CapacityModel} {settings : PlanSettings}
    {variants_by_note : Option (List (Int × List NoteVariant))}
    {beam : List _BeamState} {note : Note} {s' : _BeamState}
    (h : s' ∈ solveStep columns column_height capacity_model settings
      variants_by_note beam note) :
    ∃ state ∈ beam,
      s' ∈ stateCandidates columns column_height settings note
          (_variants_for_note note variants_by_note capacity_model column_height
            settings) state
        ∨ s' = state.push_drop note settings.drop_penalty "sin candidatos" := by
  unfold solveStep at h
  split at h
  · obtain ⟨state, hs, rfl⟩ := List.mem_map.mp h
    exact ⟨state, hs, Or.inr rfl⟩
  · have h' := pySliceTo_subset _ _ s' h
    rw [List.mem_mergeSort] at h'
    obtain ⟨state, hs, hmem⟩ := List.mem_flatMap.mp h'
    exact ⟨state, hs, Or.inl hmem⟩

/-- The generic invariant-preservation principle for the beam search: any
per-state property that is preserved by the two primitive transitions
(`push_assignment` on a successfully evaluated feasible placement, and
`push_drop` with the settings' penalty) holds of every state of the final
beam. -/
theorem solve_beam_induction (columns : Nat) (column_height : ℚ)
    (capacity_model : CapacityModel) (settings : PlanSettings)
    (variants_by_note : Option (List (Int × List NoteVariant)))
    (P : List Note → _BeamState → Prop)
    (hA : ∀ pre note state variant evaluation (col_idx : Nat) (start_mm : ℚ),
      P pre state →
      variant ∈ _variants_for_note note variants_by_note capacity_model
        column_height settings →
      col_idx + _variant_span variant ≤ columns →
      _evaluate_variant_placement note variant col_idx start_mm column_height
        settings = some evaluation →
      0 < evaluation.assignment.used_height_mm →
      P (pre ++ [note]) (state.push_assignment evaluation.assignment
        evaluation.score_delta column_height))
    (hD : ∀ pre note state reason, P pre state →
      P (pre ++ [note]) (state.push_drop note settings.drop_penalty reason)) :
    ∀ (notes pre : List Note) (beam : List _BeamState),
      (∀ state ∈ beam, P pre state) →
      ∀ s' ∈ notes.foldl
        (solveStep columns column_height capacity_model settings variants_by_note)
        beam,
      P (pre ++ notes) s' := by
  intro notes
  induction notes with
  | nil =>
    intro pre beam hbeam s' hs'
    simpa using hbeam s' (by simpa using hs')
  | cons note rest ih =>
    intro pre beam hbeam s' hs'
    rw [List.foldl_cons] at hs'
    have hstep : ∀ t ∈ solveStep columns column_height capacity_model settings
        variants_by_note beam note, P (pre ++ [note]) t := by
      intro t ht
      obtain ⟨state, hsmem, hcase⟩ := mem_solveStep ht
      rcases hcase with hmem | rfl
      · rcases mem_stateCandidates hmem with hp | rfl
        · obtain ⟨variant, hv, col_idx, start_mm, evaluation, hle, heval, hpos, rfl⟩ :=
            mem_placement_candidates hp
          exact hA pre note state variant evaluation col_idx start_mm
            (hbeam state hsmem) hv hle heval hpos
        · exact hD pre note state "sin espacio" (hbeam state hsmem)
      · exact hD pre note state "sin candidatos" (hbeam state hsmem)
    have := ih (pre ++ [note]) _ hstep s' hs'
    simpa using this

/-! ## Non-emptiness of the beam and the final selection -/

/-- A Python prefix slice of a non-empty list with a positive bound is
non-empty. -/
theorem pySliceTo_ne_nil {α : Type} {k : Int} {l : List α} (hk : 1 ≤ k)
    (hl : l ≠ []) : pySliceTo k l ≠ [] := by
  unfold pySliceTo
  rw [if_pos (by omega : (0 : Int) ≤ k)]
  intro h
  rcases List.take_eq_nil_iff.mp h with h0 | h0
  · omega
  · exact hl h0

/-- Expansion via `stateCandidates` always produces at least one candidate. -/
theorem stateCandidates_ne_nil (columns : Nat) (column_height : ℚ)
    (settings : PlanSettings) (note : Note) (note_variants : List DynVariant)
    (state : _BeamState) :
    stateCandidates columns column_height settings note note_variants state ≠ [] := by
  unfold stateCandidates
  split
  · simp
  · next hne => simpa [List.isEmpty_iff] using hne

/-- With a positive beam width a `solveStep` round keeps the beam non-empty. -/
theorem solveStep_ne_nil {columns : Nat} {column_height : ℚ}
    {capacity_model : CapacityModel} {settings : PlanSettings}
    {variants_by_note : Option (List (Int × List NoteVariant))}
    {beam : List _BeamState} {note : Note} (hbw : 1 ≤ settings.beam_width)
    (hbeam : beam ≠ []) :
    solveStep columns column_height capacity_model settings variants_by_note beam
      note ≠ [] := by
  unfold solveStep
  split
  · simpa using hbeam
  · next hne =>
    apply pySliceTo_ne_nil hbw
    intro hnil
    apply hne
    rw [List.isEmpty_iff]
    have hlen := congrArg List.length hnil
    rw [List.length_mergeSort, List.length_nil] at hlen
    exact List.length_eq_zero.mp hlen

/-- With a positive beam width the final beam is non-empty. -/
theorem solve_beam_ne_nil {columns : Nat} {column_height : ℚ}
    {capacity_model : CapacityModel} {settings : PlanSettings}
    {variants_by_note : Option (List (Int × List NoteVariant))}
    (hbw : 1 ≤ settings.beam_width) :
    ∀ (notes : List Note) (beam : List _BeamState), beam ≠ [] →
      notes.foldl
        (solveStep columns column_height capacity_model settings variants_by_note)
        beam ≠ [] := by
  intro notes
  induction notes with
  | nil => intro beam h; simpa using h
  | cons note rest ih =>
    intro beam h
    rw [List.foldl_cons]
    exact ih _ (solveStep_ne_nil hbw h)

/-- One step of the final-selection fold either keeps the accumulator or
selects the scanned state. -/
theorem select_best_step_cases (column_height : ℚ) (settings : PlanSettings)
    (acc : Option (_BeamState × ℚ)) (state : _BeamState) :
    _select_best_step column_height settings acc state = acc
      ∨ ∃ q, _select_best_step column_height settings acc state = some (state, q) := by
  unfold _select_best_step
  cases acc with
  | none => exact Or.inr ⟨_, rfl⟩
  | some best =>
    simp only
    split
    · exact Or.inr ⟨_, rfl⟩
    · exact Or.inl rfl

/-- One step of the final-selection fold never discards a `some`
accumulator. -/
theorem select_best_step_isSome (column_height : ℚ) (settings : PlanSettings)
    (acc : Option (_BeamState × ℚ)) (state : _BeamState) :
    (_select_best_step column_height settings acc state).isSome := by
  unfold _select_best_step
  cases acc with
  | none => simp
  | some best =>
    simp only
    split <;> simp

/-- The state selected by the final-selection fold is in the scanned list
(unless the accumulator survived). -/
theorem select_best_aux (column_height : ℚ) (settings : PlanSettings) :
    ∀ (l : List _BeamState) (acc : Option (_BeamState × ℚ)) (p : _BeamState × ℚ),
      l.foldl (_select_best_step column_height settings) acc = some p →
      acc = some p ∨ p.1 ∈ l := by
  intro l
  induction l with
  | nil => intro acc p h; exact Or.inl h
  | cons x xs ih =>
    intro acc p h
    rw [List.foldl_cons] at h
    rcases ih _ p h with hacc | hmem
    · rcases select_best_step_cases column_height settings acc x with he | ⟨q, he⟩
      · rw [he] at hacc; exact Or.inl hacc
      · rw [he] at hacc
        injection hacc with h'
        exact Or.inr (h' ▸ List.mem_cons_self x xs)
    · exact Or.inr (List.mem_cons_of_mem _ hmem)

/-- The best state of `_select_best` belongs to the beam. -/
theorem select_best_mem {column_height : ℚ} {settings : PlanSettings}
    {beam : List _BeamState} {p : _BeamState × ℚ}
    (h : _select_best column_height settings beam = some p) : p.1 ∈ beam := by
  unfold _select_best at h
  rcases select_best_aux column_height settings beam none p h with hacc | hmem
  · simp at hacc
  · exact hmem

/-- Selection via `_select_best` succeeds on a non-empty beam. -/
theorem select_best_isSome {column_height : ℚ} {settings : PlanSettings}
    {beam : List _BeamState} (h : beam ≠ []) :
    (_select_best column_height settings beam).isSome := by
  unfold _select_best
  cases beam with
  | nil => exact absurd rfl h
  | cons x xs =>
    rw [List.foldl_cons]
    have hsome := select_best_step_isSome column_height settings none x
    clear h
    generalize _select_best_step column_height settings none x = acc at hsome
    induction xs generalizing acc with
    | nil => simpa using hsome
    | cons y ys ih =>
      rw [List.foldl_cons]
      exact ih _ (select_best_step_isSome column_height settings acc y)

/-- The non-degenerate branch of `solve_page_layout`: the outcome's
assignment, drop, and usage fields are those of a best state, which is a
member of the final beam or (only when the final beam is empty) the initial
state. -/
theorem solve_page_layout_best (page_geom : PageGeometry) (notes : List Note)
    (capacity_model : CapacityModel) (settings : PlanSettings)
    (variants_by_note : Option (List (Int × List NoteVariant)))
    (h : ¬(page_geom.columns ≤ 0 ∨ page_geom.usable_rect_mm.2.2.2 ≤ 0)) :
    ∃ best_state : _BeamState,
      (best_state ∈ notes.foldl
          (solveStep page_geom.columns.toNat page_geom.usable_rect_mm.2.2.2
            capacity_model settings variants_by_note)
          [_initial_state page_geom.columns.toNat]
        ∨ best_state = _initial_state page_geom.columns.toNat) ∧
      (solve_page_layout page_geom notes capacity_model settings
        variants_by_note).assignments = best_state.assignments ∧
      (solve_page_layout page_geom notes capacity_model settings
        variants_by_note).dropped_notes = best_state.dropped ∧
      (solve_page_layout page_geom notes capacity_model settings
        variants_by_note).column_usage_mm = best_state.columns_used_mm := by
  simp only [solve_page_layout, if_neg h]
  cases hsel : _select_best page_geom.usable_rect_mm.2.2.2 settings
      (notes.foldl
        (solveStep page_geom.columns.toNat page_geom.usable_rect_mm.2.2.2
          capacity_model settings variants_by_note)
        [_initial_state page_geom.columns.toNat]) with
  | none =>
    exact ⟨_initial_state page_geom.columns.toNat, Or.inr rfl,
      by simp [hsel], by simp [hsel], by simp [hsel]⟩
  | some p =>
    exact ⟨p.1, Or.inl (select_best_mem hsel),
      by simp [hsel], by simp [hsel], by simp [hsel]⟩

/-- With a positive beam width the best state is a member of the final
beam. -/
theorem solve_page_layout_best_mem (page_geom : PageGeometry) (notes : List Note)
    (capacity_model : CapacityModel) (settings : PlanSettings)
    (variants_by_note : Option (List (Int × List NoteVariant)))
    (hbw : 1 ≤ settings.beam_width)
    (h : ¬(page_geom.columns ≤ 0 ∨ page_geom.usable_rect_mm.2.2.2 ≤ 0)) :
    ∃ best_state : _BeamState,
      best_state ∈ notes.foldl
          (solveStep page_geom.columns.toNat page_geom.usable_rect_mm.2.2.2
            capacity_model settings variants_by_note)
          [_initial_state page_geom.columns.toNat] ∧
      (solve_page_layout page_geom notes capacity_model settings
        variants_by_note).assignments = best_state.assignments ∧
      (solve_page_layout page_geom notes capacity_model settings
        variants_by_note).dropped_notes = best_state.dropped ∧
      (solve_page_layout page_geom notes capacity_model settings
        variants_by_note).column_usage_mm = best_state.columns_used_mm := by
  have hne := @solve_beam_ne_nil page_geom.columns.toNat
    page_geom.usable_rect_mm.2.2.2 capacity_model settings variants_by_note
    hbw notes [_initial_state page_geom.columns.toNat] (by simp)
  simp only [solve_page_layout, if_neg h]
  cases hsel : _select_best page_geom.usable_rect_mm.2.2.2 settings
      (notes.foldl
        (solveStep page_geom.columns.toNat page_geom.usable_rect_mm.2.2.2
          capacity_model settings variants_by_note)
        [_initial_state page_geom.columns.toNat]) with
  | none =>
    have := @select_best_isSome page_geom.usable_rect_mm.2.2.2 settings _ hne
    rw [hsel] at this
    simp at this
  | some p =>
    exact ⟨p.1, select_best_mem hsel, by simp [hsel], by simp [hsel],
      by simp [hsel]⟩

/-! ## C10 — input order is preserved -/

/-- C10: the notes of the outcome's assignments, in order, form a
subsequence of the input note list, and the dropped notes likewise preserve
the input order: each per-note decision is appended once during the single
forward pass and never reordered or removed. -/
theorem solver_preserves_input_order (page_geom : PageGeometry)
    (notes : List Note) (capacity_model : CapacityModel)
    (settings : PlanSettings)
    (variants_by_note : Option (List (Int × List NoteVariant))) :
    ((solve_page_layout page_geom notes capacity_model settings
        variants_by_note).assignments.map (fun a => a.note)).Sublist notes ∧
    (solve_page_layout page_geom notes capacity_model settings
        variants_by_note).dropped_notes.Sublist notes := by
  by_cases hdeg : page_geom.columns ≤ 0 ∨ page_geom.usable_rect_mm.2.2.2 ≤ 0
  · simp only [solve_page_layout, if_pos hdeg]
    exact ⟨by simp, List.Sublist.refl notes⟩
  · obtain ⟨best, hbest, ha, hd, _⟩ :=
      solve_page_layout_best page_geom notes capacity_model settings
        variants_by_note hdeg
    rw [ha, hd]
    have hA : ∀ (pre : List Note) (note : Note) (state : _BeamState)
        (variant : DynVariant) (evaluation : _PlacementEvaluation)
        (col_idx : Nat) (start_mm : ℚ),
        ((state.assignments.map (fun a => a.note)).Sublist pre ∧
          state.dropped.Sublist pre) →
        variant ∈ _variants_for_note note variants_by_note capacity_model
          page_geom.usable_rect_mm.2.2.2 settings →
        col_idx + _variant_span variant ≤ page_geom.columns.toNat →
        _evaluate_variant_placement note variant col_idx start_mm
          page_geom.usable_rect_mm.2.2.2 settings = some evaluation →
        0 < evaluation.assignment.used_height_mm →
        (((state.push_assignment evaluation.assignment evaluation.score_delta
            page_geom.usable_rect_mm.2.2.2).assignments.map
              (fun a => a.note)).Sublist (pre ++ [note]) ∧
          (state.push_assignment evaluation.assignment evaluation.score_delta
            page_geom.usable_rect_mm.2.2.2).dropped.Sublist (pre ++ [note])) := by
      intro pre note state variant evaluation col_idx start_mm hP hv hle heval hpos
      obtain ⟨hnote, -, -, -⟩ := evaluate_some_fields heval
      constructor
      · simp only [_BeamState.push_assignment, List.map_append]
        exact List.Sublist.append hP.1 (by simp [hnote])
      · exact hP.2.trans (List.sublist_append_left pre [note])
    have hD : ∀ pre note (state : _BeamState) reason,
        ((state.assignments.map (fun a => a.note)).Sublist pre ∧
          state.dropped.Sublist pre) →
        (((state.push_drop note settings.drop_penalty reason).assignments.map
            (fun a => a.note)).Sublist (pre ++ [note]) ∧
          (state.push_drop note settings.drop_penalty reason).dropped.Sublist
            (pre ++ [note])) := by
      intro pre note state reason hP
      constructor
      · exact hP.1.trans (List.sublist_append_left pre [note])
      · simp only [_BeamState.push_drop]
        exact List.Sublist.append hP.2 (List.Sublist.refl [note])
    have hinv := solve_beam_induction page_geom.columns.toNat
      page_geom.usable_rect_mm.2.2.2 capacity_model settings variants_by_note
      (fun pre s => (s.assignments.map (fun a => a.note)).Sublist pre ∧
        s.dropped.Sublist pre)
      hA hD notes [] [_initial_state page_geom.columns.toNat]
      (by intro s hs
          simp only [List.mem_singleton] at hs
          subst hs
          simp [_initial_state])
    rcases hbest with hmem | rfl
    · simpa using hinv best hmem
    · simp [_initial_state]

/-! ## C9 — used heights of assignments are positive -/

/-- C9: every `Assignment` of the outcome has a strictly positive
`used_height_mm`: candidate placements whose total height is zero or
negative are filtered out before being pushed onto a beam state. -/
theorem solver_assignments_positive_height (page_geom : PageGeometry)
    (notes : List Note) (capacity_model : CapacityModel)
    (settings : PlanSettings)
    (variants_by_note : Option (List (Int × List NoteVariant))) :
    List.Forall (fun a => 0 < a.used_height_mm)
      (solve_page_layout page_geom notes capacity_model settings
        variants_by_note).assignments := by
  rw [List.forall_iff_forall_mem]
  intro a ha
  by_cases hdeg : page_geom.columns ≤ 0 ∨ page_geom.usable_rect_mm.2.2.2 ≤ 0
  · simp [solve_page_layout, if_pos hdeg] at ha
  · obtain ⟨best, hbest, hassign, -, -⟩ :=
      solve_page_layout_best page_geom notes capacity_model settings
        variants_by_note hdeg
    rw [hassign] at ha
    have hA : ∀ (pre : List Note) (note : Note) (state : _BeamState)
        (variant : DynVariant) (evaluation : _PlacementEvaluation)
        (col_idx : Nat) (start_mm : ℚ),
        (∀ x ∈ state.assignments, 0 < x.used_height_mm) →
        variant ∈ _variants_for_note note variants_by_note capacity_model
          page_geom.usable_rect_mm.2.2.2 settings →
        col_idx + _variant_span variant ≤ page_geom.columns.toNat →
        _evaluate_variant_placement note variant col_idx start_mm
          page_geom.usable_rect_mm.2.2.2 settings = some evaluation →
        0 < evaluation.assignment.used_height_mm →
        ∀ x ∈ (state.push_assignment evaluation.assignment
            evaluation.score_delta page_geom.usable_rect_mm.2.2.2).assignments,
          0 < x.used_height_mm := by
      intro pre note state variant evaluation col_idx start_mm hP hv hle heval hpos
      intro x hx
      simp only [_BeamState.push_assignment, List.mem_append,
        List.mem_singleton] at hx
      rcases hx with hx | rfl
      · exact hP x hx
      · exact hpos
    have hD : ∀ (pre : List Note) (note : Note) (state : _BeamState)
        (reason : String),
        (∀ x ∈ state.assignments, 0 < x.used_height_mm) →
        ∀ x ∈ (state.push_drop note settings.drop_penalty reason).assignments,
          0 < x.used_height_mm := by
      intro pre note state reason hP x hx
      exact hP x hx
    have hinv := solve_beam_induction page_geom.columns.toNat
      page_geom.usable_rect_mm.2.2.2 capacity_model settings variants_by_note
      (fun _ s => ∀ x ∈ s.assignments, 0 < x.used_height_mm)
      (fun pre note state variant evaluation col_idx start_mm =>
        hA pre note state variant evaluation col_idx start_mm)
      (fun pre note state reason => hD pre note state reason)
      notes [] [_initial_state page_geom.columns.toNat]
      (by intro s hs
          simp only [List.mem_singleton] at hs
          subst hs
          simp [_initial_state])
    rcases hbest with hmem | rfl
    · exact hinv best hmem a ha
    · simp [_initial_state] at ha

/-! ## C7 — span feasibility -/

/-- C7: no `Assignment` of the outcome extends past the page's column count:
`column_index + span ≤ columns` always — a variant whose span exceeds the
column count is never proposed, and every proposed starting column `c`
satisfies `c + span ≤ columns`. -/
theorem solver_assignments_span_feasible (page_geom : PageGeometry)
    (notes : List Note) (capacity_model : CapacityModel)
    (settings : PlanSettings)
    (variants_by_note : Option (List (Int × List NoteVariant))) :
    List.Forall
      (fun a => (a.column_index : Int) + (a.span : Int) ≤ page_geom.columns)
      (solve_page_layout page_geom notes capacity_model settings
        variants_by_note).assignments := by
  rw [List.forall_iff_forall_mem]
  intro a ha
  by_cases hdeg : page_geom.columns ≤ 0 ∨ page_geom.usable_rect_mm.2.2.2 ≤ 0
  · simp [solve_page_layout, if_pos hdeg] at ha
  · obtain ⟨best, hbest, hassign, -, -⟩ :=
      solve_page_layout_best page_geom notes capacity_model settings
        variants_by_note hdeg
    rw [hassign] at ha
    have hA : ∀ (pre : List Note) (note : Note) (state : _BeamState)
        (variant : DynVariant) (evaluation : _PlacementEvaluation)
        (col_idx : Nat) (start_mm : ℚ),
        (∀ x ∈ state.assignments,
          x.column_index + x.span ≤ page_geom.columns.toNat) →
        variant ∈ _variants_for_note note variants_by_note capacity_model
          page_geom.usable_rect_mm.2.2.2 settings →
        col_idx + _variant_span variant ≤ page_geom.columns.toNat →
        _evaluate_variant_placement note variant col_idx start_mm
          page_geom.usable_rect_mm.2.2.2 settings = some evaluation →
        0 < evaluation.assignment.used_height_mm →
        ∀ x ∈ (state.push_assignment evaluation.assignment
            evaluation.score_delta page_geom.usable_rect_mm.2.2.2).assignments,
          x.column_index + x.span ≤ page_geom.columns.toNat := by
      intro pre note state variant evaluation col_idx start_mm hP hv hle heval hpos
      intro x hx
      simp only [_BeamState.push_assignment, List.mem_append,
        List.mem_singleton] at hx
      rcases hx with hx | rfl
      · exact hP x hx
      · obtain ⟨-, hcol, hspan, -⟩ := evaluate_some_fields heval
        rw [hcol, hspan]
        exact hle
    have hinv := solve_beam_induction page_geom.columns.toNat
      page_geom.usable_rect_mm.2.2.2 capacity_model settings variants_by_note
      (fun _ s => ∀ x ∈ s.assignments,
        x.column_index + x.span ≤ page_geom.columns.toNat)
      (fun pre note state variant evaluation col_idx start_mm =>
        hA pre note state variant evaluation col_idx start_mm)
      (fun pre note state reason hP x hx => hP x hx)
      notes [] [_initial_state page_geom.columns.toNat]
      (by intro s hs
          simp only [List.mem_singleton] at hs
          subst hs
          simp [_initial_state])
    have hcols : (0 : Int) < page_geom.columns := by omega
    have hNat : a.column_index + a.span ≤ page_geom.columns.toNat := by
      rcases hbest with hmem | rfl
      · exact hinv best hmem a ha
      · simp [_initial_state] at ha
    omega

/-! ## C1 — the partition property -/

/-- C1, counterexample: with `beam_width = 0` (a legal `PlanSettings` value)
the slice `new_states[:0]` empties the beam, the final selection falls back
to the initial state, and the single input note appears in neither
`assignments` nor `dropped_notes` — the claimed partition fails. -/
theorem solver_partition_claim_cex :
    ¬ (((solve_page_layout geomX [noteX] cmX
          { PlanSettings.default with beam_width := 0 } none).assignments.map
            (fun a => a.note)) ++
        (solve_page_layout geomX [noteX] cmX
          { PlanSettings.default with beam_width := 0 } none).dropped_notes).Perm
      [noteX] := by
  with_unfolding_all decide

/-- C1 (amended): for settings with `beam_width ≥ 1` (so that the per-round
truncation never empties the beam), the notes of `assignments` together with
`dropped_notes` are a permutation of the input note list — every input note
is decided exactly once, in `assignments` or in `dropped_notes` and never in
both. -/
theorem solver_partition (page_geom : PageGeometry) (notes : List Note)
    (capacity_model : CapacityModel) (settings : PlanSettings)
    (variants_by_note : Option (List (Int × List NoteVariant)))
    (hbw : 1 ≤ settings.beam_width) :
    (((solve_page_layout page_geom notes capacity_model settings
          variants_by_note).assignments.map (fun a => a.note)) ++
        (solve_page_layout page_geom notes capacity_model settings
          variants_by_note).dropped_notes).Perm notes := by
  by_cases hdeg : page_geom.columns ≤ 0 ∨ page_geom.usable_rect_mm.2.2.2 ≤ 0
  · simp [solve_page_layout, if_pos hdeg]
  · obtain ⟨best, hbest, ha, hd, -⟩ :=
      solve_page_layout_best_mem page_geom notes capacity_model settings
        variants_by_note hbw hdeg
    rw [ha, hd]
    have hA : ∀ (pre : List Note) (note : Note) (state : _BeamState)
        (variant : DynVariant) (evaluation : _PlacementEvaluation)
        (col_idx : Nat) (start_mm : ℚ),
        ((state.assignments.map (fun a => a.note)) ++ state.dropped).Perm pre →
        variant ∈ _variants_for_note note variants_by_note capacity_model
          page_geom.usable_rect_mm.2.2.2 settings →
        col_idx + _variant_span variant ≤ page_geom.columns.toNat →
        _evaluate_variant_placement note variant col_idx start_mm
          page_geom.usable_rect_mm.2.2.2 settings = some evaluation →
        0 < evaluation.assignment.used_height_mm →
        (((state.push_assignment evaluation.assignment evaluation.score_delta
              page_geom.usable_rect_mm.2.2.2).assignments.map (fun a => a.note))
            ++ (state.push_assignment evaluation.assignment
              evaluation.score_delta
              page_geom.usable_rect_mm.2.2.2).dropped).Perm (pre ++ [note]) := by
      intro pre note state variant evaluation col_idx start_mm hP hv hle heval hpos
      obtain ⟨hnote, -, -, -⟩ := evaluate_some_fields heval
      simp only [_BeamState.push_assignment, List.map_append, List.map_cons,
        List.map_nil, hnote]
      have hperm1 : ((state.assignments.map (fun a => a.note) ++ [note])
            ++ state.dropped).Perm
          ((state.assignments.map (fun a => a.note) ++ state.dropped) ++ [note]) := by
        rw [List.append_assoc, List.append_assoc]
        exact List.Perm.append_left _ List.perm_append_comm
      exact hperm1.trans (List.Perm.append hP (List.Perm.refl [note]))
    have hD : ∀ (pre : List Note) (note : Note) (state : _BeamState)
        (reason : String),
        ((state.assignments.map (fun a => a.note)) ++ state.dropped).Perm pre →
        (((state.push_drop note settings.drop_penalty reason).assignments.map
            (fun a => a.note)) ++
          (state.push_drop note settings.drop_penalty reason).dropped).Perm
          (pre ++ [note]) := by
      intro pre note state reason hP
      simp only [_BeamState.push_drop]
      rw [← List.append_assoc]
      exact List.Perm.append hP (List.Perm.refl [note])
    have hinv := solve_beam_induction page_geom.columns.toNat
      page_geom.usable_rect_mm.2.2.2 capacity_model settings variants_by_note
      (fun pre s => ((s.assignments.map (fun a => a.note)) ++ s.dropped).Perm pre)
      hA hD notes [] [_initial_state page_geom.columns.toNat]
      (by intro s hs
          simp only [List.mem_singleton] at hs
          subst hs
          simp [_initial_state])
    simpa using hinv best hbest

/-- C1, witness: the amended theorem at the default settings
(`beam_width = 8`) on a one-column page with a single note, which the solver
places. -/
theorem solver_partition_witness :
    1 ≤ PlanSettings.default.beam_width ∧
      (((solve_page_layout geomX [noteX] cmX PlanSettings.default
            none).assignments.map (fun a => a.note)) ++
          (solve_page_layout geomX [noteX] cmX PlanSettings.default
            none).dropped_notes).Perm [noteX] :=
  ⟨by with_unfolding_all decide,
    solver_partition geomX [noteX] cmX PlanSettings.default none
      (by with_unfolding_all decide)⟩

/-! ## C5 — when the drop candidate is generated -/

/-- C5, counterexample: on a one-column page with a placeable note, the
per-state expansion produces exactly one candidate and that candidate has an
empty `dropped` list — no drop candidate is generated for a state that
found a placement, contradicting the claim that a drop option is generated
unconditionally. -/
theorem solver_drop_claim_cex :
    List.Forall (fun s => s.dropped = [])
      (stateCandidates 1 100 PlanSettings.default noteX
        (_build_fallback_variants noteX cmX 100 PlanSettings.default)
        (_initial_state 1)) ∧
    (stateCandidates 1 100 PlanSettings.default noteX
        (_build_fallback_variants noteX cmX 100 PlanSettings.default)
        (_initial_state 1)).length = 1 := by
  with_unfolding_all decide

/-- C5 (amended): during per-note expansion a drop candidate is generated
for a beam state exactly when no placement candidate exists for it: either
there is no placement and the expansion is the single drop state — the note
appended to `dropped`, the score decreased by `drop_penalty`, the
`sin espacio` trace line appended — or there is a placement and every
generated candidate leaves `dropped` unchanged (no drop is generated). -/
theorem stateCandidates_drop_characterization (columns : Nat)
    (column_height : ℚ) (settings : PlanSettings) (note : Note)
    (note_variants : List DynVariant) (state : _BeamState) :
    (placement_candidates columns column_height settings note note_variants
        state = [] ∧
      stateCandidates columns column_height settings note note_variants state
        = [{ score := state.score - settings.drop_penalty
             columns_used_mm := state.columns_used_mm
             assignments := state.assignments
             dropped := state.dropped ++ [note]
             logs := state.logs ++
               ["descartar nota " ++ toString note.note_id
                 ++ " (" ++ "sin espacio" ++ ")"] }])
    ∨ (placement_candidates columns column_height settings note note_variants
          state ≠ [] ∧
        stateCandidates columns column_height settings note note_variants state
          = placement_candidates columns column_height settings note
            note_variants state ∧
        List.Forall (fun s' => s'.dropped = state.dropped)
          (stateCandidates columns column_height settings note note_variants
            state)) := by
  by_cases hp : (placement_candidates columns column_height settings note
      note_variants state).isEmpty
  · left
    refine ⟨List.isEmpty_iff.mp hp, ?_⟩
    unfold stateCandidates
    rw [if_pos hp]
    rfl
  · right
    have heq : stateCandidates columns column_height settings note note_variants
        state = placement_candidates columns column_height settings note
          note_variants state := by
      unfold stateCandidates
      rw [if_neg hp]
    refine ⟨by simpa [List.isEmpty_iff] using hp, heq, ?_⟩
    rw [List.forall_iff_forall_mem]
    intro s' hs'
    rw [heq] at hs'
    obtain ⟨variant, hv, col_idx, start_mm, evaluation, hle, heval, hpos, rfl⟩ :=
      mem_placement_candidates hs'
    simp [_BeamState.push_assignment]

/-! ## C4 — column usage stays within the column height -/

/-- A title cost is non-negative when every configured title height is. -/
theorem title_cost_nonneg {s : TextStyle}
    (h : List.Forall (fun p => 0 ≤ p.2) s.title_heights_mm)
    (level : Option Int) (span : Int) : 0 ≤ s.title_cost level span := by
  unfold TextStyle.title_cost
  cases level with
  | none => exact le_refl (0 : ℚ)
  | some lvl =>
    show (0 : ℚ) ≤ (match s.title_heights_mm.lookup lvl with
      | none => 0
      | some base => base * ((max span 1 : Int) : ℚ))
    cases hlk : s.title_heights_mm.lookup lvl with
    | none => exact le_refl (0 : ℚ)
    | some base =>
      have hb : 0 ≤ base := by
        rw [List.forall_iff_forall_mem] at h
        exact h _ (lookup_mem hlk)
      have hspan : (0 : ℚ) ≤ ((max span 1 : Int) : ℚ) := by
        exact_mod_cast (by omega : (0 : Int) ≤ max span 1)
      exact mul_nonneg hb hspan

/-- The fallback image choice has a non-negative height when every preset
height is. -/
theorem image_mode_fallback_nonneg {capacity_model : CapacityModel}
    {settings : PlanSettings}
    (h : List.Forall (fun p => 0 ≤ p.2.height_mm) capacity_model.image_presets) :
    0 ≤ (_image_mode_fallback capacity_model settings).2 := by
  rw [List.forall_iff_forall_mem] at h
  unfold _image_mode_fallback
  cases hbind : settings.default_image_preset.bind (fun nm =>
      if nm = "" then none else capacity_model.image_presets.lookup nm) with
  | some preset =>
    obtain ⟨nm, -, hif⟩ := Option.bind_eq_some.mp hbind
    have hlk : capacity_model.image_presets.lookup nm = some preset := by
      by_cases hempty : nm = ""
      · rw [if_pos hempty] at hif; exact absurd hif (by simp)
      · rwa [if_neg hempty] at hif
    simpa [ImagePreset.cost] using h _ (lookup_mem hlk)
  | none =>
    cases hps : capacity_model.image_presets with
    | nil => simp
    | cons hd tl =>
      have : hd ∈ capacity_model.image_presets := by
        rw [hps]; exact List.mem_cons_self _ _
      obtain ⟨k, preset⟩ := hd
      simpa [ImagePreset.cost] using h _ this

/-- The resolved image height is non-negative when every preset height is. -/
theorem resolve_image_mode_nonneg {note : Note} {capacity_model : CapacityModel}
    {settings : PlanSettings}
    (h : List.Forall (fun p => 0 ≤ p.2.height_mm) capacity_model.image_presets) :
    0 ≤ (_resolve_image_mode note capacity_model settings).2 := by
  unfold _resolve_image_mode
  by_cases hemp : capacity_model.image_presets.isEmpty
  · rw [if_pos hemp]
  · rw [if_neg hemp]
    cases hbind : note.image_mode.bind (fun raw_mode =>
        (capacity_model.image_presets.lookup raw_mode).map
          (fun preset => (preset.name, preset.cost none))) with
    | some r =>
      obtain ⟨raw, -, hmap⟩ := Option.bind_eq_some.mp hbind
      obtain ⟨preset, hlk, hr⟩ := Option.map_eq_some'.mp hmap
      subst hr
      rw [List.forall_iff_forall_mem] at h
      simpa [ImagePreset.cost] using h _ (lookup_mem hlk)
    | none =>
      by_cases hcnt : note.image_count.getD 0 ≤ 0
      · rw [if_pos hcnt]
      · rw [if_neg hcnt]
        exact image_mode_fallback_nonneg h

/-- The fallback title height is non-negative when every configured title
height is. -/
theorem fallback_title_height_nonneg {note : Note}
    {capacity_model : CapacityModel} {settings : PlanSettings}
    (h : List.Forall (fun p => 0 ≤ p.2)
      capacity_model.text_style.title_heights_mm) :
    0 ≤ _fallback_title_height note capacity_model settings := by
  unfold _fallback_title_height
  cases _resolve_title_level note settings with
  | none => exact le_refl (0 : ℚ)
  | some lvl =>
    show 0 ≤ (if lvl = 0 then (0 : ℚ)
      else capacity_model.title_cost (some lvl) 1)
    split
    · exact le_refl (0 : ℚ)
    · exact title_cost_nonneg h (some lvl) 1

/-- The fallback body height is non-negative when the line density is. -/
theorem fallback_body_height_nonneg {note : Note}
    {capacity_model : CapacityModel} {column_height : ℚ}
    {settings : PlanSettings}
    (hlpm : 0 ≤ capacity_model.text_style.lines_per_mm) :
    0 ≤ _fallback_body_height note capacity_model column_height settings := by
  unfold _fallback_body_height
  split
  · next hcond =>
    apply le_min
    · apply div_nonneg
      · have harg : (0 : ℚ) ≤ (_chars_for_note note : ℚ) /
            ((_fallback_chars_per_line capacity_model : Int) : ℚ) := by
          apply div_nonneg
          · exact_mod_cast hcond.1.le
          · exact_mod_cast hcond.2.le
        exact_mod_cast ratCeil_nonneg harg
      · unfold _fallback_lines_per_mm
        split
        · exact zero_le_one
        · exact hlpm
    · exact le_max_right _ _
  · exact le_refl (0 : ℚ)

/-- Every fallback variant's footprint heights are non-negative for a
well-formed capacity model. -/
theorem fallback_heights_nonneg {note : Note} {capacity_model : CapacityModel}
    {column_height : ℚ} {settings : PlanSettings} (hwf : capacity_model.WF) :
    ∀ v ∈ _build_fallback_variants note capacity_model column_height settings,
      ∀ fp, v.footprint = some fp → ∀ x ∈ fp.column_heights_mm, 0 ≤ x := by
  obtain ⟨-, hlpm, htitles, hpresets⟩ := hwf
  intro v hv fp hfp x hx
  simp only [_build_fallback_variants, List.mem_singleton] at hv
  subst hv
  simp only [Option.some.injEq] at hfp
  subst hfp
  simp only [List.mem_singleton] at hx
  subst hx
  exact add_nonneg
    (add_nonneg (fallback_title_height_nonneg htitles)
      (resolve_image_mode_nonneg hpresets))
    (fallback_body_height_nonneg hlpm.le)

/-- Every variant the solver considers has non-negative footprint heights,
for a well-formed model and a catalog with non-negative heights. -/
theorem variants_heights_nonneg {note : Note}
    {variants_by_note : Option (List (Int × List NoteVariant))}
    {capacity_model : CapacityModel} {column_height : ℚ}
    {settings : PlanSettings} (hwf : capacity_model.WF)
    (hcat : CatalogHeightsNonneg variants_by_note) :
    ∀ v ∈ _variants_for_note note variants_by_note capacity_model column_height
      settings,
      ∀ fp, v.footprint = some fp → ∀ x ∈ fp.column_heights_mm, 0 ≤ x := by
  intro v hv
  cases variants_by_note with
  | none =>
    simp only [_variants_for_note] at hv
    exact fallback_heights_nonneg hwf v hv
  | some catalog =>
    simp only [_variants_for_note] at hv
    by_cases hemp : catalog.isEmpty
    · rw [if_pos hemp] at hv
      exact fallback_heights_nonneg hwf v hv
    · rw [if_neg hemp] at hv
      by_cases hcand : (_lookup_variants note.note_id catalog).isEmpty
      · rw [if_pos hcand] at hv
        exact fallback_heights_nonneg hwf v hv
      · rw [if_neg hcand] at hv
        obtain ⟨nv, hnv, rfl⟩ := List.mem_map.mp hv
        intro fp hfp x hx
        simp only [NoteVariant.toDyn, Option.some.injEq] at hfp
        subst hfp
        simp only at hx
        unfold _lookup_variants at hnv hcand
        cases hlk : catalog.lookup note.note_id with
        | none => rw [hlk] at hcand; simp at hcand
        | some lst =>
          rw [hlk] at hnv
          simp only [Option.getD_some] at hnv
          have hentry := lookup_mem hlk
          simp only [CatalogHeightsNonneg] at hcat
          rw [List.forall_iff_forall_mem] at hcat
          have h1 := hcat _ hentry
          rw [List.forall_iff_forall_mem] at h1
          have h2 := h1 _ hnv
          rw [List.forall_iff_forall_mem] at h2
          exact h2 _ hx

/-- Pushing via `push_assignment` keeps every column usage within `[0, column_height]`
when the pushed heights are non-negative. -/
theorem push_assignment_bounds {column_height : ℚ} {state : _BeamState}
    {assignment : Assignment} {score_delta : ℚ} (hch : 0 ≤ column_height)
    (hs : ∀ u ∈ state.columns_used_mm, 0 ≤ u ∧ u ≤ column_height)
    (hh : ∀ x ∈ assignment.column_heights_mm, 0 ≤ x) :
    ∀ u ∈ (state.push_assignment assignment score_delta
      column_height).columns_used_mm, 0 ≤ u ∧ u ≤ column_height := by
  have henum : ∀ p ∈ assignment.column_heights_mm.enum, 0 ≤ p.2 := by
    intro p hp
    obtain ⟨i, x⟩ := p
    rw [List.enum_eq_zip_range] at hp
    exact hh _ (List.of_mem_zip hp).2
  simp only [_BeamState.push_assignment]
  revert henum hs
  generalize assignment.column_heights_mm.enum = pairs
  generalize state.columns_used_mm = used0
  intro hs henum
  induction pairs generalizing used0 with
  | nil => intro u hu; exact hs u hu
  | cons p ps ih =>
    rw [List.foldl_cons]
    apply ih
    · intro u hu'
      split at hu'
      · next hidx =>
        rcases List.mem_or_eq_of_mem_set hu' with hmem | rfl
        · exact hs u hmem
        · refine ⟨?_, min_le_left _ _⟩
          apply le_min hch
          have h0 : 0 ≤ used0.getD (assignment.column_index + p.1) 0 := by
            rw [List.getD_eq_getElem?_getD, List.getElem?_eq_getElem hidx,
              Option.getD_some]
            exact (hs _ (List.getElem_mem hidx)).1
          have hp2 : 0 ≤ p.2 := henum p (List.mem_cons_self _ _)
          have := add_le_add (le_max_left (used0.getD (assignment.column_index + p.1) 0) assignment.start_mm) hp2
          linarith
      · exact hs u hu'
    · intro q hq
      exact henum q (List.mem_cons_of_mem _ hq)

/-- C4: with non-degenerate geometry, a well-formed capacity model and a
catalog whose per-column heights are non-negative, every entry of the
outcome's `column_usage_mm` lies in `[0, column_height_mm]` — exactly, with
no floating tolerance needed — and the bound is preserved by every
beam-state expansion (`push_assignment` with non-negative heights). -/
theorem solver_column_usage_bounded (page_geom : PageGeometry)
    (notes : List Note) (capacity_model : CapacityModel)
    (settings : PlanSettings)
    (variants_by_note : Option (List (Int × List NoteVariant)))
    (hcols : 0 < page_geom.columns)
    (hch : 0 < page_geom.usable_rect_mm.2.2.2)
    (hwf : capacity_model.WF) (hcat : CatalogHeightsNonneg variants_by_note) :
    List.Forall
      (fun u => 0 ≤ u ∧ u ≤ page_geom.usable_rect_mm.2.2.2)
      (solve_page_layout page_geom notes capacity_model settings
        variants_by_note).column_usage_mm
    ∧ ∀ (state : _BeamState) (assignment : Assignment) (score_delta : ℚ),
        (∀ u ∈ state.columns_used_mm,
          0 ≤ u ∧ u ≤ page_geom.usable_rect_mm.2.2.2) →
        (∀ x ∈ assignment.column_heights_mm, 0 ≤ x) →
        ∀ u ∈ (state.push_assignment assignment score_delta
          page_geom.usable_rect_mm.2.2.2).columns_used_mm,
          0 ≤ u ∧ u ≤ page_geom.usable_rect_mm.2.2.2 := by
  constructor
  · rw [List.forall_iff_forall_mem]
    intro u hu
    have hdeg : ¬(page_geom.columns ≤ 0 ∨ page_geom.usable_rect_mm.2.2.2 ≤ 0) := by
      push_neg
      exact ⟨hcols, hch⟩
    obtain ⟨best, hbest, -, -, husage⟩ :=
      solve_page_layout_best page_geom notes capacity_model settings
        variants_by_note hdeg
    rw [husage] at hu
    have hA : ∀ (pre : List Note) (note : Note) (state : _BeamState)
        (variant : DynVariant) (evaluation : _PlacementEvaluation)
        (col_idx : Nat) (start_mm : ℚ),
        (∀ x ∈ state.columns_used_mm,
          0 ≤ x ∧ x ≤ page_geom.usable_rect_mm.2.2.2) →
        variant ∈ _variants_for_note note variants_by_note capacity_model
          page_geom.usable_rect_mm.2.2.2 settings →
        col_idx + _variant_span variant ≤ page_geom.columns.toNat →
        _evaluate_variant_placement note variant col_idx start_mm
          page_geom.usable_rect_mm.2.2.2 settings = some evaluation →
        0 < evaluation.assignment.used_height_mm →
        ∀ x ∈ (state.push_assignment evaluation.assignment
            evaluation.score_delta
            page_geom.usable_rect_mm.2.2.2).columns_used_mm,
          0 ≤ x ∧ x ≤ page_geom.usable_rect_mm.2.2.2 := by
      intro pre note state variant evaluation col_idx start_mm hP hv hle heval hpos
      obtain ⟨-, -, -, fp, hfp, hheights⟩ := evaluate_some_fields heval
      apply push_assignment_bounds hch.le hP
      rw [hheights]
      intro x hx
      rcases _take_span_mem x hx with hmem | rfl
      · exact variants_heights_nonneg hwf hcat variant hv fp hfp x hmem
      · exact le_refl 0
    have hinv := solve_beam_induction page_geom.columns.toNat
      page_geom.usable_rect_mm.2.2.2 capacity_model settings variants_by_note
      (fun _ s => ∀ x ∈ s.columns_used_mm,
        0 ≤ x ∧ x ≤ page_geom.usable_rect_mm.2.2.2)
      (fun pre note state variant evaluation col_idx start_mm =>
        hA pre note state variant evaluation col_idx start_mm)
      (fun pre note state reason hP x hx => hP x hx)
      notes [] [_initial_state page_geom.columns.toNat]
      (by intro s hs
          simp only [List.mem_singleton] at hs
          subst hs
          intro x hx
          simp only [_initial_state] at hx
          obtain rfl := List.eq_of_mem_replicate hx
          exact ⟨le_refl 0, hch.le⟩)
    rcases hbest with hmem | rfl
    · exact hinv best hmem u hu
    · simp only [_initial_state] at hu
      obtain rfl := List.eq_of_mem_replicate hu
      exact ⟨le_refl 0, hch.le⟩
  · intro state assignment score_delta hs hh
    exact push_assignment_bounds hch.le hs hh

/-- C4, witness: the bound theorem evaluated on a one-column page of height
100 mm, one note, the default model and no catalog; the single column's
usage is 504/19 mm. -/
theorem solver_column_usage_bounded_witness :
    ((0 : Int) < geomX.columns ∧ (0 : ℚ) < geomX.usable_rect_mm.2.2.2 ∧
      cmX.WF ∧ CatalogHeightsNonneg none) ∧
    (List.Forall
      (fun u => 0 ≤ u ∧ u ≤ geomX.usable_rect_mm.2.2.2)
      (solve_page_layout geomX [noteX] cmX PlanSettings.default
        none).column_usage_mm
    ∧ ∀ (state : _BeamState) (assignment : Assignment) (score_delta : ℚ),
        (∀ u ∈ state.columns_used_mm,
          0 ≤ u ∧ u ≤ geomX.usable_rect_mm.2.2.2) →
        (∀ x ∈ assignment.column_heights_mm, 0 ≤ x) →
        ∀ u ∈ (state.push_assignment assignment score_delta
          geomX.usable_rect_mm.2.2.2).columns_used_mm,
          0 ≤ u ∧ u ≤ geomX.usable_rect_mm.2.2.2) :=
  ⟨⟨by with_unfolding_all decide, by with_unfolding_all decide,
      ⟨by with_unfolding_all decide, by with_unfolding_all decide,
        by with_unfolding_all decide, by with_unfolding_all decide⟩,
      trivial⟩,
    solver_column_usage_bounded geomX [noteX] cmX PlanSettings.default none
      (by with_unfolding_all decide) (by with_unfolding_all decide)
      ⟨by with_unfolding_all decide, by with_unfolding_all decide,
        by with_unfolding_all decide, by with_unfolding_all decide⟩
      trivial⟩

end LayoutSolver
